import Mathlib

set_option autoImplicit false
set_option maxRecDepth 8000

namespace Bait


/-- Single-quote character as a string, used to build shell-quoted command text. -/
def sq : String := String.singleton (Char.ofNat 39)

/-- Contiguous-infix test on character lists. -/
def charsInfix (needle : List Char) : List Char → Bool
  | [] => needle.isEmpty
  | h :: t => needle.isPrefixOf (h :: t) || charsInfix needle t

/-- Substring test: Python's `needle in haystack` on strings. -/
def strIn (needle haystack : String) : Bool := charsInfix needle.data haystack.data

/-- The source's float literal 0.0 as an exact rational. -/
def conf000 : Rat := ⟨0, 1, by decide, by decide⟩

/-- The source's float literal 0.5 as an exact rational. -/
def conf050 : Rat := ⟨1, 2, by decide, by decide⟩

/-- The source's float literal 0.60 as an exact rational. -/
def conf060 : Rat := ⟨3, 5, by decide, by decide⟩

/-- The source's float literal 0.70 as an exact rational. -/
def conf070 : Rat := ⟨7, 10, by decide, by decide⟩

/-- The source's float literal 0.80 as an exact rational. -/
def conf080 : Rat := ⟨4, 5, by decide, by decide⟩

/-- The source's float literal 0.85 as an exact rational. -/
def conf085 : Rat := ⟨17, 20, by decide, by decide⟩

/-- The source's float literal 0.90 as an exact rational. -/
def conf090 : Rat := ⟨9, 10, by decide, by decide⟩

/-- The source's float literal 0.95 as an exact rational. -/
def conf095 : Rat := ⟨19, 20, by decide, by decide⟩

/-- Retry strategy types (`RetryStrategy` in retry_orchestrator.py). -/
inductive RetryStrategy where
  | linear
  | exponential
  | adaptive
  deriving DecidableEq

/-- Issue severity levels (`IssueSeverity` in tutorial_fixer.py). -/
inductive IssueSeverity where
  | critical
  | major
  | minor
  | info
  deriving DecidableEq

/-- The `.value` string of an `IssueSeverity` member. -/
def IssueSeverity.value : IssueSeverity → String
  | .critical => "critical"
  | .major => "major"
  | .minor => "minor"
  | .info => "info"

/-- Issue categories (`IssueCategory` in tutorial_fixer.py); `syntaxCat` models the
member whose `.value` is "syntax". -/
inductive IssueCategory where
  | environment
  | container
  | dependency
  | permission
  | network
  | configuration
  | syntaxCat
  deriving DecidableEq

/-- The `.value` string of an `IssueCategory` member. -/
def IssueCategory.value : IssueCategory → String
  | .environment => "environment"
  | .container => "container"
  | .dependency => "dependency"
  | .permission => "permission"
  | .network => "network"
  | .configuration => "configuration"
  | .syntaxCat => "syntax"

/-- A detected issue (`Issue` dataclass in tutorial_fixer.py).  The float
`fix_confidence` is modelled as a rational. -/
structure Issue where
  id : String
  title : String
  description : String
  category : IssueCategory
  severity : IssueSeverity
  command : String
  error_message : String
  auto_fixable : Bool := false
  fix_confidence : Rat := conf000
  deriving DecidableEq

/-- An automatic fix (`Fix` dataclass in tutorial_fixer.py). -/
structure Fix where
  issue_id : String
  description : String
  commands : List String
  validation_command : Option String := none
  rollback_commands : Option (List String) := none
  success : Bool := false
  error_message : Option String := none
  deriving DecidableEq

/-- Information about one retry attempt (`RetryAttempt` dataclass in
retry_orchestrator.py).  Wall-clock times are modelled as naturals supplied by
the execution environment. -/
structure RetryAttempt where
  attempt_number : Nat
  start_time : Nat
  end_time : Option Nat := none
  success : Bool := false
  error_message : Option String := none
  issues_detected : List Issue := []
  fixes_applied : List Fix := []
  retry_reason : Option String := none
  deriving DecidableEq

/-- Result of command execution with retry information (`ExecutionResult`
dataclass in retry_orchestrator.py). -/
structure ExecutionResult where
  success : Bool
  final_attempt : RetryAttempt
  all_attempts : List RetryAttempt
  total_execution_time : Nat
  issues_detected : List Issue := []
  fixes_applied : List Fix := []
  deriving DecidableEq

/-- A single tutorial step (`TutorialStep` dataclass in tutorial_test_agent.py). -/
structure TutorialStep where
  step_number : Nat
  title : String
  commands : List String
  expected_outcomes : List String
  validation_criteria : List String
  prerequisites : List String := []
  timeout : Nat := 300
  deriving DecidableEq

/-- Python `str.title()` over a character list; the boolean argument records
whether the previous character was alphabetic. -/
def pyTitleChars : Bool → List Char → List Char
  | _, [] => []
  | prevAlpha, c :: t =>
    (if prevAlpha then c.toLower else c.toUpper) :: pyTitleChars c.isAlpha t

/-- Python `str.title()`. -/
def pyTitle (s : String) : String := ⟨pyTitleChars false s.data⟩

/-- Fuel-based worker for `pyReplace`; the fuel is the input length, and each
step consumes at least one character. -/
def replaceGo (pat rep : List Char) : Nat → List Char → List Char
  | 0, l => l
  | fuel + 1, l =>
    match l with
    | [] => []
    | h :: t =>
      if pat.isPrefixOf l then rep ++ replaceGo pat rep fuel (t.drop (pat.length - 1))
      else h :: replaceGo pat rep fuel t

/-- Python `s.replace(pat, rep)`: replace every non-overlapping occurrence,
left to right (for non-empty `pat`). -/
def pyReplace (s pat rep : String) : String :=
  ⟨replaceGo pat.data rep.data s.data.length s.data⟩

/-- Python `s.lower()` for the ASCII strings used here. -/
def pyLower (s : String) : String := ⟨s.data.map Char.toLower⟩

/-- Python `sep.join(parts)` restricted to the `" && ".join` use in the
orchestrator (equivalently `String.intercalate`). -/
def joinSep (sep : String) : List String → String
  | [] => ""
  | [x] => x
  | x :: xs@(_ :: _) => x ++ sep ++ joinSep sep xs

/-- One entry of the fix-patterns registry (`_load_fix_patterns` in
tutorial_fixer.py): the keys each config dict may carry. -/
structure PatternConfig where
  pattern : String
  category : IssueCategory
  severity : IssueSeverity
  auto_fixable : Bool
  fix_confidence : Rat
  description : Option String := none
  fix_commands : Option (List String) := none
  fix_template : Option String := none
  validation : Option String := none
  suggestion : Option String := none
  fix_description : Option String := none
  deriving DecidableEq

/-- The fix-patterns registry of `TutorialFixAgent._load_fix_patterns`, in the
source dictionary's insertion order. -/
def fix_patterns : List (String × PatternConfig) :=
  [ ("conda_env_missing",
     { pattern := "conda.*activate.*environment.*not.*exist",
       category := .environment, severity := .major,
       auto_fixable := true, fix_confidence := conf095,
       fix_commands := some ["conda create -n BITS_demo python=3.11 -y",
                             "conda activate BITS_demo"],
       validation := some "conda info --envs | grep BITS_demo" }),
    ("conda_not_found",
     { pattern := "conda.*command not found",
       category := .dependency, severity := .critical,
       auto_fixable := false, fix_confidence := conf000,
       suggestion := some "Install Anaconda or Miniconda from https://conda.io/" }),
    ("conda_not_initialized",
     { pattern := "Run " ++ sq ++ "conda init" ++ sq ++ " before " ++ sq ++ "conda activate" ++ sq,
       category := .environment, severity := .major,
       auto_fixable := true, fix_confidence := conf090,
       fix_commands := some
         ["bash -c " ++ sq ++ "if [ -f ~/miniconda3/etc/profile.d/conda.sh ]; then source ~/miniconda3/etc/profile.d/conda.sh; elif [ -f ~/anaconda3/etc/profile.d/conda.sh ]; then source ~/anaconda3/etc/profile.d/conda.sh; fi; conda activate BITS_demo" ++ sq],
       validation := some "conda info --envs | grep BITS_demo" }),
    ("source_command_not_found",
     { pattern := "/bin/sh.*source.*not found",
       category := .syntaxCat, severity := .major,
       auto_fixable := true, fix_confidence := conf095,
       fix_template := some ("bash -c " ++ sq ++ "{original_command}" ++ sq),
       description := some "Use bash instead of sh for source commands" }),
    ("path_not_found",
     { pattern := "can" ++ sq ++ "t cd to (/path/to/bits_demo|bits_demo/)",
       category := .configuration, severity := .major,
       auto_fixable := true, fix_confidence := conf095,
       fix_template := some "cd {resolved_path}",
       description := some "Replace template paths with actual project paths" }),
    ("pip_package_missing",
     { pattern := "ModuleNotFoundError.*No module named " ++ sq ++ "(\\w+)" ++ sq,
       category := .dependency, severity := .major,
       auto_fixable := true, fix_confidence := conf085,
       fix_template := some "pip install {package_name}",
       validation := some ("python -c " ++ sq ++ "import {package_name}" ++ sq) }),
    ("container_not_running",
     { pattern := "(container.*not.*running|connection.*refused.*5064|IOC.*not.*responding)",
       category := .container, severity := .critical,
       auto_fixable := true, fix_confidence := conf090,
       fix_commands := some
         ["podman run -itd --net=host --name adsim_ioc epics-podman:latest adsim",
          "podman run -itd --net=host --name gp_ioc epics-podman:latest gp"],
       validation := some ("podman ps | grep -E " ++ sq ++ "(adsim_ioc|gp_ioc)" ++ sq) }),
    ("container_startup_timeout",
     { pattern := "container.*startup.*timeout",
       category := .container, severity := .major,
       auto_fixable := true, fix_confidence := conf080,
       fix_commands := some
         ["podman stop adsim_ioc gp_ioc || true",
          "podman rm adsim_ioc gp_ioc || true",
          "sleep 5",
          "podman run -itd --net=host --name adsim_ioc epics-podman:latest adsim",
          "podman run -itd --net=host --name gp_ioc epics-podman:latest gp"],
       validation := some ("timeout 120 bash -c " ++ sq ++ "until caget adsim:cam1:Acquire_RBV; do sleep 2; done" ++ sq) }),
    ("podman_not_found",
     { pattern := "podman.*command not found",
       category := .dependency, severity := .critical,
       auto_fixable := true, fix_confidence := conf070,
       fix_commands := some ["sudo apt update", "sudo apt install -y podman"],
       validation := some "podman --version" }),
    ("permission_denied",
     { pattern := "Permission denied.*\\.(sh|py)",
       category := .permission, severity := .major,
       auto_fixable := true, fix_confidence := conf095,
       fix_template := some "chmod +x {script_path}",
       validation := some "test -x {script_path}" }),
    ("pv_connection_timeout",
     { pattern := "(caget.*timeout|PV.*connection.*timeout|caput.*timeout)",
       category := .network, severity := .major,
       auto_fixable := true, fix_confidence := conf070,
       fix_commands := some
         ["sleep 10",
          "export EPICS_CA_ADDR_LIST=127.0.0.1",
          "export EPICS_CA_AUTO_ADDR_LIST=NO"],
       validation := some "caget adsim:cam1:Acquire_RBV" }),
    ("python_import_error",
     { pattern := "ImportError.*No module named.*bluesky",
       category := .dependency, severity := .major,
       auto_fixable := true, fix_confidence := conf085,
       fix_commands := some ["pip install bluesky[complete] apstools bits-base"],
       validation := some ("python -c " ++ sq ++ "import bluesky; print(bluesky.__version__)" ++ sq) }),
    ("pythonpath_issue",
     { pattern := "ModuleNotFoundError.*bits",
       category := .configuration, severity := .major,
       auto_fixable := true, fix_confidence := conf080,
       fix_commands := some ["cd bits_base/BITS && pip install -e ."],
       validation := some ("python -c " ++ sq ++ "import bits_base.BITS" ++ sq) }),
    ("file_not_found",
     { pattern := "No such file or directory.*\\.(sh|py|yml|yaml)",
       category := .configuration, severity := .major,
       auto_fixable := true, fix_confidence := conf060,
       fix_description := some "Attempt to locate and update file paths" }) ]

/-- The Issue record built for one matched registry entry inside
`detect_issues`; `t` is the value of `int(time.time())` at creation. -/
def mkDetectedIssue (issueType : String) (pc : PatternConfig) (t : Nat)
    (command error_output : String) : Issue :=
  { id := issueType ++ "_" ++ toString t,
    title := pyTitle (pyReplace issueType "_" " "),
    description := pc.description.getD ("Detected " ++ issueType),
    category := pc.category,
    severity := pc.severity,
    command := command,
    error_message := error_output,
    auto_fixable := pc.auto_fixable,
    fix_confidence := pc.fix_confidence }

/-- Pattern-matching loop of `detect_issues`.  `matchO` is the regex oracle
standing for `_match_pattern(pattern, error_output)`; `ts` gives the value of
the i-th `int(time.time())` call (one per matched pattern). -/
def detectGo (matchO : String → String → Bool) (ts : Nat → Nat)
    (command error_output : String) :
    List (String × PatternConfig) → Nat → List Issue
  | [], _ => []
  | (issueType, pc) :: rest, i =>
    if matchO pc.pattern error_output then
      mkDetectedIssue issueType pc (ts i) command error_output ::
        detectGo matchO ts command error_output rest (i + 1)
    else
      detectGo matchO ts command error_output rest i

/-- `TutorialFixAgent.detect_issues`: empty on exit code 0, otherwise one Issue
per registry pattern matching the error output, in registry order. -/
def detect_issues (matchO : String → String → Bool) (ts : Nat → Nat)
    (command error_output : String) (return_code : Int) : List Issue :=
  if return_code = 0 then []
  else detectGo matchO ts command error_output fix_patterns 0

/-- Opening brace character, written numerically. -/
def lbrace : Char := Char.ofNat 123

/-- Closing brace character, written numerically. -/
def rbrace : Char := Char.ofNat 125

/-- Dictionary lookup with Python semantics for repeated assignments: the last
binding of a key wins. -/
def lookupParam (params : List (String × String)) (key : String) : Option String :=
  params.foldl (fun acc p => if p.1 = key then some p.2 else acc) none

/-- Fuel-based worker for `formatTemplate`. -/
def formatGo (params : List (String × String)) : Nat → List Char → Option (List Char)
  | 0, l => if l.isEmpty then some [] else none
  | fuel + 1, l =>
    match l with
    | [] => some []
    | c :: t =>
      if c = lbrace then
        let name := t.takeWhile (fun d => d ≠ rbrace)
        match t.drop name.length with
        | d :: rest =>
          if d = rbrace then
            match lookupParam params ⟨name⟩ with
            | some v => (formatGo params fuel rest).map (fun r => v.data ++ r)
            | none => none
          else none
        | [] => none
      else
        (formatGo params fuel t).map (fun r => c :: r)

/-- Python `template.format(**params)` for the simple `\x7bname\x7d`
placeholders used by the fix templates; `none` models a raised `KeyError`
(missing parameter) or malformed template. -/
def formatTemplate (template : String) (params : List (String × String)) : Option String :=
  (formatGo params template.data.length template.data).map (fun r => (⟨r⟩ : String))

/-- First-wins association lookup in the fix-pattern registry (its keys are
unique, so this is Python `dict.get`). -/
def lookupFixPattern : List (String × PatternConfig) → String → Option PatternConfig
  | [], _ => none
  | (k, v) :: rest, key => if k = key then some v else lookupFixPattern rest key

/-- `TutorialFixAgent._generate_fix_for_issue`.  The regex-driven part of
`_extract_fix_parameters` is the oracle `extract` (error text, pattern,
command ↦ extracted parameters); the unconditional `original_command` binding
of `_extract_fix_parameters` is kept concrete.  `none` models returning `None`
(unknown issue type, missing template parameter, or no fix commands). -/
def generate_fix_for_issue (extract : String → String → String → List (String × String))
    (issue : Issue) : Option Fix :=
  match lookupFixPattern fix_patterns (pyReplace (pyLower issue.title) " " "_") with
  | none => none
  | some pc =>
    match pc.fix_template with
    | some template =>
      let params := ("original_command", issue.command) ::
        extract issue.error_message pc.pattern issue.command
      match formatTemplate template params with
      | none => none
      | some cmd =>
        match pc.validation with
        | none => some { issue_id := issue.id, description := "Fix for " ++ issue.title,
                         commands := [cmd], validation_command := none,
                         rollback_commands := none }
        | some v =>
          match formatTemplate v params with
          | none => none
          | some vcmd => some { issue_id := issue.id, description := "Fix for " ++ issue.title,
                                commands := [cmd], validation_command := some vcmd,
                                rollback_commands := none }
    | none =>
      match pc.fix_commands with
      | some cmds => some { issue_id := issue.id, description := "Fix for " ++ issue.title,
                            commands := cmds, validation_command := pc.validation,
                            rollback_commands := none }
      | none => none

/-- `TutorialFixAgent.generate_fixes`: only auto-fixable issues with confidence
strictly above 0.5 are considered; issues whose fix generation returns `None`
are skipped. -/
def generate_fixes (extract : String → String → String → List (String × String))
    (issues : List Issue) : List Fix :=
  issues.filterMap (fun issue =>
    if issue.auto_fixable ∧ conf050 < issue.fix_confidence then
      generate_fix_for_issue extract issue
    else none)

/-- Result of one `_run_command` call: a completed process, or a raised
exception (e.g. timeout). -/
inductive CmdRes where
  | done (returncode : Int) (stdout stderr : String)
  | raised (msg : String)
  deriving DecidableEq

/-- Outcome of running a fix's remediation commands in order
(the first loop of `apply_fix`). -/
inductive FixCmdsOutcome where
  | ok
  | failed (stderr : String)
  | raised (msg : String)
  deriving DecidableEq

/-- Run the remediation commands in order, stopping at the first non-zero exit
or raised exception. -/
def runFixCommands (run : String → CmdRes) : List String → FixCmdsOutcome
  | [] => .ok
  | c :: rest =>
    match run c with
    | .raised m => .raised m
    | .done rc _ err => if rc ≠ 0 then .failed err else runFixCommands run rest

/-- How one `apply_fix` call ends. -/
inductive ApplyOutcome where
  | ok
  | cmdFailed (stderr : String)
  | valFailed (stderr : String)
  | raised (msg : String)
  deriving DecidableEq

/-- Control flow of `TutorialFixAgent.apply_fix`: remediation commands, then
the optional validation command; exceptions land in the `except` branch. -/
def applyFixOutcome (run : String → CmdRes) (fix : Fix) : ApplyOutcome :=
  match runFixCommands run fix.commands with
  | .raised m => .raised m
  | .failed e => .cmdFailed e
  | .ok =>
    match fix.validation_command with
    | none => .ok
    | some v =>
      match run v with
      | .raised m => .raised m
      | .done rc _ err => if rc ≠ 0 then .valFailed err else .ok

/-- Per-issue-type fix statistics: key, attempts, successes (the
`fix_stats` dictionary, in insertion order). -/
abbrev FixStats := List (String × Nat × Nat)

/-- Key extraction of `_update_fix_stats`: `issue_id.split(s)[0]` with `s` the
underscore — the text before the first underscore. -/
def statKey (issue_id : String) : String := ⟨issue_id.data.takeWhile (fun c => c ≠ '_')⟩

/-- `TutorialFixAgent._update_fix_stats`: create the entry on first use, then
bump attempts, and successes on success. -/
def updateFixStats (stats : FixStats) (issue_id : String) (success : Bool) : FixStats :=
  let key := statKey issue_id
  if (stats.any (fun e => e.1 = key)) = true then
    stats.map (fun e =>
      if e.1 = key then (e.1, e.2.1 + 1, if success then e.2.2 + 1 else e.2.2) else e)
  else
    stats ++ [(key, 1, if success then 1 else 0)]

/-- `TutorialFixAgent.apply_fix`, returning (returned bool, updated fix,
updated fix_stats).  Statistics are touched only on the full-success path and
in the exception handler, exactly as in the source. -/
def apply_fix (run : String → CmdRes) (stats : FixStats) (fix : Fix) :
    Bool × Fix × FixStats :=
  match applyFixOutcome run fix with
  | .cmdFailed e => (false, { fix with success := false, error_message := some e }, stats)
  | .valFailed e =>
      let msg := "Fix validation failed: " ++ e
      (false, { fix with success := false, error_message := some msg }, stats)
  | .ok => (true, { fix with success := true }, updateFixStats stats fix.issue_id true)
  | .raised m =>
      (false, { fix with success := false, error_message := some m },
       updateFixStats stats fix.issue_id false)

/-- Attempts counter recorded for a key (0 when absent). -/
def statAttempts (stats : FixStats) (key : String) : Nat :=
  (stats.foldl (fun acc e => if e.1 = key then some e.2.1 else acc) none).getD 0

/-- Successes counter recorded for a key (0 when absent). -/
def statSuccesses (stats : FixStats) (key : String) : Nat :=
  (stats.foldl (fun acc e => if e.1 = key then some e.2.2 else acc) none).getD 0

/-- Python `s.strip()` for the whitespace cases used here. -/
def pyStrip (s : String) : String :=
  ⟨((s.data.dropWhile Char.isWhitespace).reverse.dropWhile Char.isWhitespace).reverse⟩

/-- Python `s.startswith(pre)`. -/
def strStarts (pre s : String) : Bool := pre.data.isPrefixOf s.data

/-- The substring `"Run 'conda init'"` tested by `modify_command_for_retry`. -/
def condaInitMarker : String := "Run " ++ sq ++ "conda init" ++ sq

/-- The substring `"can't cd to"` tested by `modify_command_for_retry`. -/
def cantCdMarker : String := "can" ++ sq ++ "t cd to"

/-- `RetryOrchestrator.modify_command_for_retry`.  `cwd` stands for
`Path.cwd()` and `bitsDemoPathCfg` for `config.get("bits_demo_path")`; the
`Path` join is modelled as slash concatenation. -/
def modify_command_for_retry (cwd : String) (bitsDemoPathCfg : Option String)
    (command : String) (attempt : Nat) (error : String) : String :=
  let bitsDemoPath := bitsDemoPathCfg.getD "bits_base/BITS/src/bits_demo"
  if strIn "conda activate" command ∧ strIn condaInitMarker error ∧ attempt = 2 then
    "bash -c " ++ sq ++ "source ~/miniconda3/etc/profile.d/conda.sh && " ++ command ++ sq
  else if strIn "conda activate" command ∧ strIn condaInitMarker error ∧ attempt = 3 then
    "bash -c " ++ sq ++ "source ~/anaconda3/etc/profile.d/conda.sh && " ++ command ++ sq
  else if strIn "source" command ∧ strIn "/bin/sh" error ∧ strIn "not found" error then
    "bash -c " ++ sq ++ command ++ sq
  else if strIn cantCdMarker error ∧ strIn "/path/to/bits_demo" command then
    pyReplace command "/path/to/bits_demo" (cwd ++ "/" ++ bitsDemoPath)
  else if strIn cantCdMarker error ∧ strIn "bits_demo/" command then
    pyReplace command "bits_demo/" (cwd ++ "/" ++ bitsDemoPath ++ "/")
  else if strIn "manifest unknown" error ∧ strIn "ghcr.io/bcda-aps/epics-podman" command then
    pyReplace command "ghcr.io/bcda-aps/epics-podman:latest" "epics-podman:latest"
  else command

/-- Python-code indicators of `_is_python_command`. -/
def python_indicators : List String :=
  ["import ", "from ", "def ", "class ", "print(", "if __name__"]

/-- Bash indicators of `_is_python_command`. -/
def bash_indicators : List String :=
  ["conda ", "cd ", "ls ", "mkdir ", "rm ", "cp ", "source ",
   "python -c ", "python3 -c ", "pip ", "podman ", "bash ", "sh ",
   "echo ", "grep ", "find ", "chmod ", "export ", "&&", "||", "&& "]

/-- `RetryOrchestrator._is_python_command`. -/
def is_python_command (command : String) : Bool :=
  if bash_indicators.any (fun b => strIn b command) then false
  else python_indicators.any (fun p => strIn p command)

/-- The stripped conda-initialization snippet of
`_enhance_command_with_environment` (inner indentation preserved by
`str.strip`). -/
def conda_init_stripped : String :=
  "if [ -f ~/miniconda3/etc/profile.d/conda.sh ]; then\n                source ~/miniconda3/etc/profile.d/conda.sh\n            elif [ -f ~/anaconda3/etc/profile.d/conda.sh ]; then\n                source ~/anaconda3/etc/profile.d/conda.sh\n            fi"

/-- `RetryOrchestrator._enhance_command_with_environment`. -/
def enhance_command_with_environment (command : String) : String :=
  if strIn "conda activate" command then
    "bash -c " ++ sq ++ conda_init_stripped ++ " && " ++ command ++ sq
  else if strStarts "source " (pyStrip command) then
    "bash -c " ++ sq ++ command ++ sq
  else command

/-- The payload handed to the process layer for one command of a step: python
snippets go to the interpreter verbatim, shell commands are first enhanced. -/
def commandPayload (command : String) : String :=
  if is_python_command command then command else enhance_command_with_environment command

/-- `RetryOrchestrator._execute_step`: run the step's commands in order through
the process oracle `runA` (payload ↦ (success, error)), stopping at the first
failure. -/
def execute_step (runA : String → Bool × Option String) : List String → Bool × Option String
  | [] => (true, none)
  | c :: rest =>
    match runA (commandPayload c) with
    | (true, _) => execute_step runA rest
    | (false, err) => (false, err)

/-- Lexicographic (code-point) comparison on character lists: Python's `<` on
strings. -/
def charsLt : List Char → List Char → Bool
  | [], [] => false
  | [], _ :: _ => true
  | _ :: _, [] => false
  | a :: as, b :: bs => if a < b then true else if b < a then false else charsLt as bs

/-- Python string `<`. -/
def strLt (a b : String) : Bool := charsLt a.data b.data

/-- Stable descending insertion by the severity's `.value` string: the order
produced by Python `sorted(key=lambda x: x.severity.value, reverse=True)`. -/
def insertBySeverityValueDesc (x : Issue) : List Issue → List Issue
  | [] => [x]
  | y :: t =>
    if strLt y.severity.value x.severity.value then x :: y :: t
    else y :: insertBySeverityValueDesc x t

/-- The sort performed by `_apply_fixes_for_issues` on the detected issues. -/
def sortIssuesBySeverityValueDesc : List Issue → List Issue
  | [] => []
  | x :: t => insertBySeverityValueDesc x (sortIssuesBySeverityValueDesc t)

/-- Apply a list of generated fixes in order, keeping the (mutated) fixes whose
application reported success, threading the fix statistics. -/
def applyEachFix (run : String → CmdRes) : List Fix → FixStats → List Fix × FixStats
  | [], st => ([], st)
  | f :: fs, st =>
    let r := apply_fix run st f
    let rest := applyEachFix run fs r.2.2
    (if r.1 then r.2.1 :: rest.1 else rest.1, rest.2)

/-- Loop body of `_apply_fixes_for_issues` over the severity-sorted issues. -/
def applyFixesGo (extract : String → String → String → List (String × String))
    (run : String → CmdRes) : List Issue → FixStats → List Fix × FixStats
  | [], st => ([], st)
  | issue :: rest, st =>
    if issue.auto_fixable then
      let step := applyEachFix run (generate_fixes extract [issue]) st
      let tail := applyFixesGo extract run rest step.2
      (step.1 ++ tail.1, tail.2)
    else applyFixesGo extract run rest st

/-- `RetryOrchestrator._apply_fixes_for_issues`: empty without a fixer,
otherwise generate and apply fixes over the issues sorted by
`severity.value` descending. -/
def apply_fixes_for_issues (hasFixer : Bool)
    (extract : String → String → String → List (String × String))
    (run : String → CmdRes) (issues : List Issue) (st : FixStats) : List Fix × FixStats :=
  if hasFixer then applyFixesGo extract run (sortIssuesBySeverityValueDesc issues) st
  else ([], st)

/-- `RetryOrchestrator._should_reset_environment`. -/
def should_reset_environment (issues : List Issue) : Bool :=
  issues.any (fun i =>
    ((i.category.value == "container") || (i.category.value == "environment")) &&
      (i.severity.value == "critical"))

/-- One entry of the orchestrator's `retry_patterns` table. -/
structure RetryPattern where
  strategy : RetryStrategy
  max_attempts : Nat
  base_delay : Nat
  requires_reset : Bool
  deriving DecidableEq

/-- The `retry_patterns` table built in `RetryOrchestrator.__init__`. -/
def retry_patterns : List (String × RetryPattern) :=
  [("container", ⟨.exponential, 3, 10, true⟩),
   ("dependency", ⟨.linear, 2, 5, false⟩),
   ("network", ⟨.exponential, 4, 5, false⟩),
   ("environment", ⟨.linear, 2, 3, true⟩),
   ("permission", ⟨.linear, 2, 2, false⟩)]

/-- First-wins lookup in `retry_patterns` (keys are unique). -/
def lookupRetryPattern : List (String × RetryPattern) → String → Option RetryPattern
  | [], _ => none
  | (k, v) :: rest, key => if k = key then some v else lookupRetryPattern rest key

/-- Increment the count of a category key, inserting it at the end on first
occurrence (Python dict insertion order). -/
def bumpCount (counts : List (String × Nat)) (key : String) : List (String × Nat) :=
  if (counts.any (fun e => e.1 = key)) = true then
    counts.map (fun e => if e.1 = key then (e.1, e.2 + 1) else e)
  else counts ++ [(key, 1)]

/-- The `category_counts` dictionary of `_get_dominant_issue_category`. -/
def categoryCounts (issues : List Issue) : List (String × Nat) :=
  issues.foldl (fun acc i => bumpCount acc i.category.value) []

/-- `RetryOrchestrator._get_dominant_issue_category`: the first key attaining
the maximal count, in insertion order (Python `max` over dict keys). -/
def get_dominant_issue_category (issues : List Issue) : String :=
  match categoryCounts issues with
  | [] => "general"
  | e :: rest => (rest.foldl (fun best x => if x.2 > best.2 then x else best) e).1

/-- `RetryOrchestrator._calculate_retry_delay`, with the orchestrator's
configured `base_delay` and `max_delay` as the first two arguments. -/
def calculate_retry_delay (baseDelayCfg maxDelayCfg : Nat)
    (attempt_number : Nat) (strategy : RetryStrategy) (issues : List Issue) : Nat :=
  let sb : RetryStrategy × Nat :=
    if issues ≠ [] ∧ strategy = .adaptive then
      match lookupRetryPattern retry_patterns (get_dominant_issue_category issues) with
      | some p => (p.strategy, p.base_delay)
      | none => (strategy, baseDelayCfg)
    else (strategy, baseDelayCfg)
  let delay :=
    match sb.1 with
    | .linear => sb.2
    | .exponential => sb.2 * 2 ^ (attempt_number - 1)
    | .adaptive => sb.2
  min delay maxDelayCfg

/-- Effectful environment of one `execute_with_retry` call: the process layer,
regex oracles and wall-clock samples.  `runA k p` is the outcome of issuing
payload `p` during attempt `k`; `ts k i` the `int(time.time())` of the i-th
issue created while classifying attempt `k`'s failure; `runFix k c` the
process outcome of fix/validation command `c` during attempt `k`. -/
structure OrchEnv where
  runA : Nat → String → Bool × Option String
  matchO : String → String → Bool
  ts : Nat → Nat → Nat
  extract : String → String → String → List (String × String)
  runFix : Nat → String → CmdRes
  t0 : Nat := 0
  aStart : Nat → Nat := fun _ => 0
  aEnd : Nat → Nat := fun _ => 0
  retNow : Nat → Nat := fun _ => 0

/-- Constructor-time configuration of `RetryOrchestrator.__init__`:
`config.get("max_attempts", 3)`, `config.get("strategy", "adaptive")`,
`base_delay`, `max_delay`, and whether a fixer collaborator was supplied.
Environment resets touch no state modelled here, so the container manager
needs no field. -/
structure OrchCfg where
  maxAttemptsCfg : Option Nat := none
  strategyCfg : RetryStrategy := .adaptive
  base_delay : Nat := 5
  max_delay : Nat := 60
  hasFixer : Bool := true

/-- `self.default_max_attempts = self.config.get("max_attempts", 3)`. -/
def default_max_attempts (cfg : OrchCfg) : Nat := cfg.maxAttemptsCfg.getD 3

/-- The retry reason recorded when the environment is reset. -/
def resetReason : String := "Environment reset due to critical issues"

/-- The retry reason recorded after applying `n` fixes. -/
def appliedReason (n : Nat) : String := "Applied " ++ toString n ++ " fixes, retrying"

/-- The `for attempt_num in range(1, max_attempts + 1)` loop of
`execute_with_retry`.  Arguments after `strategy`: remaining iterations,
current attempt number, accumulated attempts, running issue and fix logs, and
the fixer's statistics.  The returned flag records whether the loop exited by
success.  The inter-attempt delay only suspends, so it is computed but has no
further effect. -/
def retryGo (env : OrchEnv) (cfg : OrchCfg) (cmdJoined : String) (step : TutorialStep)
    (strategy : RetryStrategy) :
    Nat → Nat → List RetryAttempt → List Issue → List Fix → FixStats →
    List RetryAttempt × List Issue × List Fix × Bool
  | 0, _, atts, iss, fxs, _ => (atts, iss, fxs, false)
  | rem + 1, num, atts, iss, fxs, st =>
    let r := execute_step (env.runA num) step.commands
    let att : RetryAttempt :=
      { attempt_number := num, start_time := env.aStart num,
        end_time := some (env.aEnd num), success := r.1, error_message := r.2 }
    if r.1 then (atts ++ [att], iss, fxs, true)
    else if cfg.hasFixer then
      let issues := detect_issues env.matchO (env.ts num) cmdJoined (r.2.getD "") 1
      let att1 := { att with issues_detected := issues }
      if 0 < rem then
        let fr := apply_fixes_for_issues true env.extract (env.runFix num) issues st
        let reason :=
          if should_reset_environment issues then resetReason else appliedReason fr.1.length
        let att2 := { att1 with fixes_applied := fr.1, retry_reason := some reason }
        let _delay := calculate_retry_delay cfg.base_delay cfg.max_delay num strategy issues
        retryGo env cfg cmdJoined step strategy rem (num + 1)
          (atts ++ [att2]) (iss ++ issues) (fxs ++ fr.1) fr.2
      else
        retryGo env cfg cmdJoined step strategy rem (num + 1)
          (atts ++ [att1]) (iss ++ issues) fxs st
    else
      retryGo env cfg cmdJoined step strategy rem (num + 1) (atts ++ [att]) iss fxs st

/-- `RetryOrchestrator.execute_with_retry`.  A `none` result models the
`IndexError` raised by `attempts[-1]` when zero attempts run; every other path
returns a well-formed `ExecutionResult`. -/
def execute_with_retry (env : OrchEnv) (cfg : OrchCfg) (step : TutorialStep)
    (max_attempts : Option Nat) (strategy : Option RetryStrategy) :
    Option ExecutionResult :=
  let maxA := match max_attempts with
    | none => default_max_attempts cfg
    | some n => if n = 0 then default_max_attempts cfg else n
  let strat := strategy.getD cfg.strategyCfg
  let cmdJoined := joinSep " && " step.commands
  let r := retryGo env cfg cmdJoined step strat maxA 1 [] [] [] []
  match r.1.getLast? with
  | none => none
  | some fin =>
    some { success := r.2.2.2, final_attempt := fin, all_attempts := r.1,
           total_execution_time := env.retNow r.1.length - env.t0,
           issues_detected := r.2.1, fixes_applied := r.2.2.1 }

/-- Supported container runtimes (`ContainerRuntime` in container_manager.py). -/
inductive ContainerRuntime where
  | podman
  | docker
  deriving DecidableEq

/-- The `.value` string of a `ContainerRuntime` member. -/
def ContainerRuntime.value : ContainerRuntime → String
  | .podman => "podman"
  | .docker => "docker"

/-- Information about a container (`ContainerInfo` dataclass). -/
structure ContainerInfo where
  name : String
  image : String
  status : String
  ports : List (String × String)
  created : String
  runtime : ContainerRuntime
  deriving DecidableEq

/-- The mutable state of a `ContainerManager` relevant to container teardown:
the detected runtime and the `managed_containers` registry (a dict, in
insertion order).  `trace` additionally records every engine command issued,
in order, so that command sequences can be observed. -/
structure CMState where
  runtime : ContainerRuntime
  managed_containers : List (String × ContainerInfo)
  trace : List (List String) := []
  deriving DecidableEq

/-- `ContainerManager.stop_container`: issue `stop`, and on exit code 0 drop
the container from the registry; exceptions and non-zero exits return false
and leave the registry alone. -/
def stop_container (run : List String → CmdRes) (st : CMState) (name : String) :
    Bool × CMState :=
  let cmd := [st.runtime.value, "stop", name]
  let st1 := { st with trace := st.trace ++ [cmd] }
  match run cmd with
  | .raised _ => (false, st1)
  | .done rc _ _ =>
    if rc = 0 then
      (true, { st1 with
               managed_containers := st1.managed_containers.filter (fun e => e.1 ≠ name) })
    else (false, st1)

/-- `ContainerManager.remove_container`: best-effort stop, then `rm`. -/
def remove_container (run : List String → CmdRes) (st : CMState) (name : String) :
    Bool × CMState :=
  let st1 := (stop_container run st name).2
  let cmd := [st.runtime.value, "rm", name]
  let st2 := { st1 with trace := st1.trace ++ [cmd] }
  match run cmd with
  | .raised _ => (false, st2)
  | .done rc _ _ => (if rc = 0 then true else false, st2)

/-- `ContainerManager.cleanup_containers`: remove every container named in a
snapshot of the registry's keys. -/
def cleanup_containers (run : List String → CmdRes) (st : CMState) : CMState :=
  (st.managed_containers.map Prod.fst).foldl (fun s n => (remove_container run s n).2) st

/-- Whether the engine's `stop` command for a name reports exit code 0 under a
given process oracle and runtime. -/
def stopSucceeds (run : List String → CmdRes) (rt : ContainerRuntime) (name : String) : Bool :=
  match run [rt.value, "stop", name] with
  | .done rc _ _ => rc = 0
  | .raised _ => false

/-- A critical container issue exactly as `detect_issues` emits it for the
`container_not_running` registry entry. -/
def issueContainerCrit : Issue :=
  { id := "container_not_running_50", title := "Container Not Running",
    description := "Detected container_not_running", category := .container,
    severity := .critical, command := "podman ps",
    error_message := "container not running",
    auto_fixable := true, fix_confidence := conf090 }

/-- A major environment issue exactly as `detect_issues` emits it for the
`conda_env_missing` registry entry. -/
def issueCondaMajor : Issue :=
  { id := "conda_env_missing_50", title := "Conda Env Missing",
    description := "Detected conda_env_missing", category := .environment,
    severity := .major, command := "conda activate BITS_demo",
    error_message := "conda activate environment does not exist",
    auto_fixable := true, fix_confidence := conf095 }

/-- A minor-severity issue fixture. -/
def issueMinorFixture : Issue :=
  { id := "x_1", title := "X", description := "d", category := .configuration,
    severity := .minor, command := "c", error_message := "e" }

/-- An info-severity issue fixture. -/
def issueInfoFixture : Issue :=
  { id := "y_1", title := "Y", description := "d", category := .configuration,
    severity := .info, command := "c", error_message := "e" }

/-- An issue as `detect_issues` emits it for `pip_package_missing`, whose
templated fix needs a `package_name` parameter. -/
def issuePipNoParam : Issue :=
  { id := "pip_package_missing_60", title := "Pip Package Missing",
    description := "Detected pip_package_missing", category := .dependency,
    severity := .major, command := "python x.py",
    error_message := "ModuleNotFoundError: No module named foo",
    auto_fixable := true, fix_confidence := conf085 }

/-- An auto-fixable issue whose confidence sits exactly on the 0.5 boundary. -/
def issueBoundaryHalf : Issue :=
  { id := "pythonpath_issue_60", title := "Pythonpath Issue",
    description := "d", category := .configuration, severity := .major,
    command := "c", error_message := "e",
    auto_fixable := true, fix_confidence := conf050 }

/-- A fix whose single remediation command will exit non-zero. -/
def fixCmdFail : Fix :=
  { issue_id := "conda_env_missing_77", description := "d", commands := ["boom"] }

/-- A fix with no remediation commands and a validation command that will exit
non-zero. -/
def fixValFail : Fix :=
  { issue_id := "conda_env_missing_78", description := "d", commands := [],
    validation_command := some "check" }

/-- The always-succeeding process oracle for the C7 witness. -/
def runOk7 : String → CmdRes := fun _ => .done 0 "" ""

/-- A fix whose remediation and validation commands succeed under `runOk7`. -/
def fixOk7 : Fix :=
  { issue_id := "conda_env_missing_79", description := "d", commands := ["a"],
    validation_command := some "v" }

/-- A registry entry fixture for the C8 scenarios. -/
def ciFixture (n : String) : ContainerInfo :=
  { name := n, image := "img", status := "running", ports := [], created := "t",
    runtime := .podman }

/-- An adapter state tracking three containers. -/
def st3C8 : CMState :=
  { runtime := .podman,
    managed_containers := [("a", ciFixture "a"), ("b", ciFixture "b"), ("c", ciFixture "c")] }

/-- An adapter state tracking one container. -/
def stFailC8 : CMState :=
  { runtime := .podman, managed_containers := [("a", ciFixture "a")] }

/-- The process oracle for the C8 counterexample: the stop command exits 1,
everything else exits 0. -/
def runFailC8 : List String → CmdRes := fun cmd =>
  if cmd = ["podman", "stop", "a"] then .done 1 "" "err" else .done 0 "" ""

/-- An environment in which every command fails. -/
def envAllFail : OrchEnv :=
  { runA := fun _ _ => (false, some "boom"),
    matchO := fun _ _ => false,
    ts := fun _ _ => 0,
    extract := fun _ _ _ => [],
    runFix := fun _ _ => .done 0 "" "" }

/-- A one-command step fixture. -/
def stepFixture : TutorialStep :=
  { step_number := 1, title := "t", commands := ["boom"],
    expected_outcomes := [], validation_criteria := [] }

/-- An environment whose attempts fail until attempt 2, which succeeds. -/
def envSuccAt2 : OrchEnv :=
  { runA := fun k _ => if k = 2 then (true, none) else (false, some "e"),
    matchO := fun _ _ => false,
    ts := fun _ _ => 0,
    extract := fun _ _ _ => [],
    runFix := fun _ _ => .done 0 "" "" }

/-- The conda-activation command of the C4 scenario. -/
def condaCmdC4 : String := "conda activate BITS_demo"

/-- The conda-initialization error text of the C4 scenario. -/
def condaErrC4 : String := condaInitMarker ++ " before " ++ sq ++ "conda activate" ++ sq

/-- The C4 environment: issuing the original command's payload always fails
with the conda-initialization error, while any other payload succeeds. -/
def envC4 : OrchEnv :=
  { runA := fun _ p =>
      if p = commandPayload condaCmdC4 then (false, some condaErrC4) else (true, none),
    matchO := fun _ _ => false,
    ts := fun _ _ => 0,
    extract := fun _ _ _ => [],
    runFix := fun _ _ => .done 0 "" "" }

/-- The C4 step: a single conda-activation command. -/
def stepC4 : TutorialStep :=
  { step_number := 1, title := "t", commands := [condaCmdC4],
    expected_outcomes := [], validation_criteria := [] }

/-- C5: under the exponential strategy the computed delay for attempt `a + 1`
equals `min (base_delay * 2 ^ a) max_delay`; with `base_delay = 5` and
`max_delay = 60` the delays for attempts 1..7 are 5, 10, 20, 40, 60, 60, 60;
and under every strategy the computed delay never exceeds `max_delay`. -/
theorem claim_C5 :
    (∀ (base maxd a : Nat) (issues : List Issue),
        calculate_retry_delay base maxd (a + 1) .exponential issues =
          min (base * 2 ^ a) maxd)
    ∧ ((List.range 7).map (fun i => calculate_retry_delay 5 60 (i + 1) .exponential []) =
        [5, 10, 20, 40, 60, 60, 60])
    ∧ (∀ (base maxd a : Nat) (strat : RetryStrategy) (issues : List Issue),
        calculate_retry_delay base maxd a strat issues ≤ maxd) := by
  refine ⟨?_, by decide, ?_⟩
  · intro base maxd a issues
    simp [calculate_retry_delay]
  · intro base maxd a strat issues
    exact Nat.min_le_right _ _

/-- C3: the sort in `_apply_fixes_for_issues` keys on the severity's string
value, so in reverse lexicographic order it yields minor, major, info,
critical — the fix for a critical issue is applied after the fix for a major
issue, contradicting the claimed severity-descending order (and the code's own
comment "Sort issues by severity (critical first)"). -/
theorem claim_C3 :
    sortIssuesBySeverityValueDesc [issueContainerCrit, issueCondaMajor] =
      [issueCondaMajor, issueContainerCrit]
    ∧ ((apply_fixes_for_issues true (fun _ _ _ => []) (fun _ => .done 0 "" "")
          [issueContainerCrit, issueCondaMajor] []).1.map Fix.issue_id =
        ["conda_env_missing_50", "container_not_running_50"])
    ∧ ((sortIssuesBySeverityValueDesc
          [issueContainerCrit, issueCondaMajor, issueMinorFixture, issueInfoFixture]).map
        (fun i => i.severity.value) = ["minor", "major", "info", "critical"]) := by
  decide

/-- Every fix produced by `_generate_fix_for_issue` carries the issue's id. -/
theorem generate_fix_for_issue_issue_id
    (extract : String → String → String → List (String × String)) (i : Issue) (f : Fix)
    (h : generate_fix_for_issue extract i = some f) : f.issue_id = i.id := by
  unfold generate_fix_for_issue at h
  rcases hlk : lookupFixPattern fix_patterns (pyReplace (pyLower i.title) " " "_") with _ | pc <;>
      simp only [hlk] at h
  · exact Option.noConfusion h
  · rcases hft : pc.fix_template with _ | tpl <;> simp only [hft] at h
    · rcases hfc : pc.fix_commands with _ | cmds <;> simp only [hfc] at h
      · exact Option.noConfusion h
      · rw [← Option.some.inj h]
    · rcases hf1 : formatTemplate tpl (("original_command", i.command) ::
          extract i.error_message pc.pattern i.command) with _ | cmd <;> simp only [hf1] at h
      · exact Option.noConfusion h
      · rcases hv : pc.validation with _ | v <;> simp only [hv] at h
        · rw [← Option.some.inj h]
        · rcases hf2 : formatTemplate v (("original_command", i.command) ::
              extract i.error_message pc.pattern i.command) with _ | vcmd <;> simp only [hf2] at h
          · exact Option.noConfusion h
          · rw [← Option.some.inj h]

/-- C6: `generate_fixes` yields a fix only for issues that are auto-fixable
with fix confidence strictly greater than 0.5 (so 0.5 exactly yields none),
and an issue whose fix generation returns nothing (e.g. a template parameter
that cannot be extracted from the error text) is skipped while the fixes of
the surrounding issues in the same list are still produced. -/
theorem claim_C6 :
    (∀ (extract : String → String → String → List (String × String))
       (issues : List Issue) (f : Fix), f ∈ generate_fixes extract issues →
        ∃ i ∈ issues, i.auto_fixable = true ∧ conf050 < i.fix_confidence ∧ f.issue_id = i.id)
    ∧ (∀ (extract : String → String → String → List (String × String))
         (xs ys : List Issue) (i : Issue),
        (i.fix_confidence = conf050 ∨ i.auto_fixable = false ∨
            generate_fix_for_issue extract i = none) →
        generate_fixes extract (xs ++ i :: ys) =
          generate_fixes extract xs ++ generate_fixes extract ys) := by
  constructor
  · intro extract issues f hf
    unfold generate_fixes at hf
    rcases List.mem_filterMap.mp hf with ⟨i, hi, hgen⟩
    by_cases hc : i.auto_fixable ∧ conf050 < i.fix_confidence
    · rw [if_pos hc] at hgen
      exact ⟨i, hi, hc.1, hc.2, generate_fix_for_issue_issue_id _ _ _ hgen⟩
    · rw [if_neg hc] at hgen
      cases hgen
  · intro extract xs ys i hskip
    have hnone : (if i.auto_fixable ∧ conf050 < i.fix_confidence then
        generate_fix_for_issue extract i else none) = none := by
      rcases hskip with h | h | h
      · rw [if_neg]
        rintro ⟨_, hlt⟩
        rw [h] at hlt
        exact lt_irrefl _ hlt
      · rw [if_neg]
        rintro ⟨ha, _⟩
        rw [h] at ha
        cases ha
      · split <;> simp [h]
    unfold generate_fixes
    simp [List.filterMap_append, List.filterMap_cons, hnone]

/-- C6 at concrete inputs: the untemplatable pip fix is skipped between two
issues whose fixes are produced, and a confidence of exactly 0.5 yields no
fix. -/
theorem claim_C6_witness :
    (generate_fixes (fun _ _ _ => []) ([issueCondaMajor] ++ issuePipNoParam :: [issueContainerCrit]) =
      generate_fixes (fun _ _ _ => []) [issueCondaMajor] ++
        generate_fixes (fun _ _ _ => []) [issueContainerCrit])
    ∧ (generate_fixes (fun _ _ _ => []) ([] ++ issueBoundaryHalf :: []) =
        generate_fixes (fun _ _ _ => []) [] ++ generate_fixes (fun _ _ _ => []) [])
    ∧ (generate_fixes (fun _ _ _ => []) [issueCondaMajor]).length = 1 :=
  ⟨claim_C6.2 (fun _ _ _ => []) [issueCondaMajor] [issueContainerCrit] issuePipNoParam
      (Or.inr (Or.inr (by decide))),
   claim_C6.2 (fun _ _ _ => []) [] [] issueBoundaryHalf (Or.inl rfl),
   by decide⟩

/-- A last-wins stat lookup over entries without the key returns the
accumulator unchanged. -/
theorem foldl_stat_no_key (key : String) (p : String × Nat × Nat → Nat) :
    ∀ (l : FixStats) (acc : Option Nat), l.any (fun e => e.1 = key) = false →
      l.foldl (fun a e => if e.1 = key then some (p e) else a) acc = acc := by
  intro l
  induction l with
  | nil => intro acc _; rfl
  | cons e t ih =>
    intro acc h
    simp only [List.any_cons, Bool.or_eq_false_iff] at h
    have he : ¬ e.1 = key := by simpa using h.1
    simp only [List.foldl_cons, if_neg he]
    exact ih _ h.2

/-- A last-wins stat lookup over entries containing the key returns some
value. -/
theorem foldl_stat_some (key : String) (p : String × Nat × Nat → Nat) :
    ∀ (l : FixStats) (acc : Option Nat), l.any (fun e => e.1 = key) = true →
      ∃ v, l.foldl (fun a e => if e.1 = key then some (p e) else a) acc = some v := by
  intro l
  induction l with
  | nil => intro acc h; cases h
  | cons e t ih =>
    intro acc h
    by_cases he : e.1 = key
    · simp only [List.foldl_cons, if_pos he]
      by_cases ht : t.any (fun e => e.1 = key) = true
      · exact ih _ ht
      · have ht' : t.any (fun e => e.1 = key) = false := by
          cases hta : t.any (fun e => e.1 = key)
          · rfl
          · exact absurd hta ht
        rw [foldl_stat_no_key key p t _ ht']
        exact ⟨p e, rfl⟩
    · simp only [List.any_cons] at h
      have ht : t.any (fun e => e.1 = key) = true := by
        rcases Bool.or_eq_true_iff.mp h with h1 | h1
        · exact absurd (of_decide_eq_true h1) he
        · exact h1
      simp only [List.foldl_cons, if_neg he]
      exact ih _ ht

/-- Mapping an entry-wise update that bumps the projected counter of matching
entries by `d` shifts the last-wins lookup by `d`. -/
theorem foldl_stat_map (key : String) (p : String × Nat × Nat → Nat) (d : Nat)
    (g : String × Nat × Nat → String × Nat × Nat)
    (hmatch : ∀ e, e.1 = key → (g e).1 = key ∧ p (g e) = p e + d)
    (hnomatch : ∀ e, ¬ e.1 = key → g e = e) :
    ∀ (l : FixStats) (acc : Option Nat),
      (l.map g).foldl (fun a e => if e.1 = key then some (p e) else a) (acc.map (· + d)) =
        (l.foldl (fun a e => if e.1 = key then some (p e) else a) acc).map (· + d) := by
  intro l
  induction l with
  | nil => intro acc; rfl
  | cons e t ih =>
    intro acc
    by_cases he : e.1 = key
    · obtain ⟨h1, h2⟩ := hmatch e he
      simp only [List.map_cons, List.foldl_cons, if_pos he, if_pos h1, h2]
      have hs : some (p e + d) = (some (p e)).map (· + d) := rfl
      rw [hs]
      exact ih _
    · simp only [List.map_cons, List.foldl_cons, hnomatch e he, if_neg he]
      exact ih _

/-- Specialization of `foldl_stat_map` to the empty accumulator. -/
theorem foldl_stat_map_none (key : String) (p : String × Nat × Nat → Nat) (d : Nat)
    (g : String × Nat × Nat → String × Nat × Nat)
    (hmatch : ∀ e, e.1 = key → (g e).1 = key ∧ p (g e) = p e + d)
    (hnomatch : ∀ e, ¬ e.1 = key → g e = e) (l : FixStats) :
    (l.map g).foldl (fun a e => if e.1 = key then some (p e) else a) none =
      (l.foldl (fun a e => if e.1 = key then some (p e) else a) none).map (· + d) :=
  foldl_stat_map key p d g hmatch hnomatch l none

/-- `_update_fix_stats` bumps the attempts counter of the issue's key by one. -/
theorem statAttempts_updateFixStats (stats : FixStats) (id : String) (b : Bool) :
    statAttempts (updateFixStats stats id b) (statKey id) =
      statAttempts stats (statKey id) + 1 := by
  unfold updateFixStats statAttempts
  by_cases h : stats.any (fun e => e.1 = statKey id) = true
  · rw [if_pos h]
    rw [foldl_stat_map_none (statKey id) (fun e => e.2.1) 1
      (fun e => if e.1 = statKey id then (e.1, e.2.1 + 1, if b then e.2.2 + 1 else e.2.2) else e)
      (fun e he => by simp [he]) (fun e he => by simp [he]) stats]
    obtain ⟨v, hv⟩ := foldl_stat_some (statKey id) (fun e => e.2.1) stats none h
    rw [hv]
    rfl
  · rw [if_neg h]
    have h' : stats.any (fun e => e.1 = statKey id) = false := by
      cases hsa : stats.any (fun e => e.1 = statKey id)
      · rfl
      · exact absurd hsa h
    rw [List.foldl_append]
    rw [foldl_stat_no_key (statKey id) (fun e => e.2.1) stats none h']
    simp

/-- `_update_fix_stats` bumps the successes counter of the issue's key exactly
on success. -/
theorem statSuccesses_updateFixStats (stats : FixStats) (id : String) (b : Bool) :
    statSuccesses (updateFixStats stats id b) (statKey id) =
      statSuccesses stats (statKey id) + (if b then 1 else 0) := by
  unfold updateFixStats statSuccesses
  by_cases h : stats.any (fun e => e.1 = statKey id) = true
  · rw [if_pos h]
    rw [foldl_stat_map_none (statKey id) (fun e => e.2.2) (if b then 1 else 0)
      (fun e => if e.1 = statKey id then (e.1, e.2.1 + 1, if b then e.2.2 + 1 else e.2.2) else e)
      (fun e he => by cases b <;> simp [he]) (fun e he => by simp [he]) stats]
    obtain ⟨v, hv⟩ := foldl_stat_some (statKey id) (fun e => e.2.2) stats none h
    rw [hv]
    cases b <;> rfl
  · rw [if_neg h]
    have h' : stats.any (fun e => e.1 = statKey id) = false := by
      cases hsa : stats.any (fun e => e.1 = statKey id)
      · rfl
      · exact absurd hsa h
    rw [List.foldl_append]
    rw [foldl_stat_no_key (statKey id) (fun e => e.2.2) stats none h']
    cases b <;> simp

/-- C7 (amended): `_update_fix_stats` increments the attempts counter of the
key derived from the fix's issue id (its first underscore-separated token) and
the successes counter exactly on success; but `apply_fix` reaches it only on
the full-success path and in the exception handler — a remediation command
exiting non-zero, or a failed validation command, returns false with the
statistics map untouched. -/
theorem claim_C7 :
    (∀ (stats : FixStats) (id : String) (b : Bool),
        statAttempts (updateFixStats stats id b) (statKey id) =
          statAttempts stats (statKey id) + 1 ∧
        statSuccesses (updateFixStats stats id b) (statKey id) =
          statSuccesses stats (statKey id) + (if b then 1 else 0))
    ∧ (∀ (run : String → CmdRes) (stats : FixStats) (fix : Fix),
        ((apply_fix run stats fix).1 = true →
          (apply_fix run stats fix).2.2 = updateFixStats stats fix.issue_id true)
        ∧ (∀ e, applyFixOutcome run fix = .cmdFailed e ∨ applyFixOutcome run fix = .valFailed e →
            (apply_fix run stats fix).1 = false ∧ (apply_fix run stats fix).2.2 = stats)
        ∧ (∀ m, applyFixOutcome run fix = .raised m →
            (apply_fix run stats fix).1 = false ∧
            (apply_fix run stats fix).2.2 = updateFixStats stats fix.issue_id false)) := by
  constructor
  · intro stats id b
    exact ⟨statAttempts_updateFixStats stats id b, statSuccesses_updateFixStats stats id b⟩
  · intro run stats fix
    rcases ho : applyFixOutcome run fix <;> simp [apply_fix, ho]

/-- C7 counterexample: a remediation command exiting non-zero, and a failed
validation command, both leave the statistics map empty — the attempts counter
for the fix's issue type is not incremented, contrary to the claim. -/
theorem claim_C7_counterexample :
    ((apply_fix (fun _ => .done 1 "" "err") [] fixCmdFail).2.2 = [] ∧
     (apply_fix (fun _ => .done 1 "" "err") [] fixCmdFail).1 = false)
    ∧ ((apply_fix (fun _ => .done 1 "" "verr") [] fixValFail).2.2 = [] ∧
       (apply_fix (fun _ => .done 1 "" "verr") [] fixValFail).1 = false) := by
  decide

/-- C7 at concrete inputs: a successful application updates the stats map, and
the update bumps the attempts and successes counters of key "conda". -/
theorem claim_C7_witness :
    (apply_fix runOk7 [] fixOk7).2.2 = updateFixStats [] fixOk7.issue_id true
    ∧ statAttempts (updateFixStats [] "conda_env_missing_79" true) (statKey "conda_env_missing_79") =
        statAttempts ([] : FixStats) (statKey "conda_env_missing_79") + 1 :=
  ⟨(claim_C7.2 runOk7 [] fixOk7).1 (by decide),
   (claim_C7.1 [] "conda_env_missing_79" true).1⟩

/-- The state after `stop_container`: the stop command is traced, and the
registry entry disappears exactly when the stop exits 0. -/
theorem stop_container_state (run : List String → CmdRes) (st : CMState) (name : String) :
    (stop_container run st name).2 =
      { runtime := st.runtime,
        managed_containers :=
          if stopSucceeds run st.runtime name then
            st.managed_containers.filter (fun e => e.1 ≠ name)
          else st.managed_containers,
        trace := st.trace ++ [[st.runtime.value, "stop", name]] } := by
  unfold stop_container stopSucceeds
  rcases h : run [st.runtime.value, "stop", name] with ⟨rc, out, err⟩ | m
  · by_cases hrc : rc = 0 <;> simp [h, hrc]
  · simp [h]

/-- The state after `remove_container`: stop then rm are traced, and the
registry entry disappears exactly when the stop exits 0. -/
theorem remove_container_state (run : List String → CmdRes) (st : CMState) (name : String) :
    (remove_container run st name).2 =
      { runtime := st.runtime,
        managed_containers :=
          if stopSucceeds run st.runtime name then
            st.managed_containers.filter (fun e => e.1 ≠ name)
          else st.managed_containers,
        trace := st.trace ++ [[st.runtime.value, "stop", name], [st.runtime.value, "rm", name]] } := by
  unfold remove_container
  rw [stop_container_state]
  rcases h : run [st.runtime.value, "rm", name] with ⟨rc, out, err⟩ | m
  · by_cases hrc : rc = 0 <;> simp [h, hrc]
  · simp [h]

/-- Effect of the cleanup fold over an arbitrary list of names: runtime
preserved, one stop/rm pair traced per name, and the registry filtered down to
entries whose name was not processed with a succeeding stop. -/
theorem cleanup_go_state (run : List String → CmdRes) :
    ∀ (names : List String) (st : CMState),
      (names.foldl (fun s n => (remove_container run s n).2) st).runtime = st.runtime
      ∧ (names.foldl (fun s n => (remove_container run s n).2) st).trace =
          st.trace ++ names.flatMap
            (fun n => [[st.runtime.value, "stop", n], [st.runtime.value, "rm", n]])
      ∧ (names.foldl (fun s n => (remove_container run s n).2) st).managed_containers =
          st.managed_containers.filter
            (fun e => !(names.contains e.1 && stopSucceeds run st.runtime e.1)) := by
  intro names
  induction names with
  | nil =>
    intro st
    refine ⟨rfl, by simp, ?_⟩
    simp only [List.foldl_nil]
    have hself : ∀ e ∈ st.managed_containers,
        (!(([] : List String).contains e.1 && stopSucceeds run st.runtime e.1)) = true := by
      intro e _
      simp
    exact (List.filter_eq_self.mpr hself).symm
  | cons n rest ih =>
    intro st
    have hstep := remove_container_state run st n
    simp only [List.foldl_cons, hstep]
    obtain ⟨ihr, iht, ihm⟩ := ih _
    refine ⟨ihr, ?_, ?_⟩
    · rw [iht]
      simp [List.append_assoc]
    · rw [ihm]
      by_cases hok : stopSucceeds run st.runtime n = true
      · rw [if_pos hok, List.filter_filter]
        apply List.filter_congr
        intro e _
        by_cases he : e.1 = n
        · subst he
          simp [hok]
        · simp [he, List.contains_cons]
      · have hok' : stopSucceeds run st.runtime n = false := by
          cases hx : stopSucceeds run st.runtime n
          · rfl
          · exact absurd hx hok
        rw [if_neg (by simp [hok'])]
        apply List.filter_congr
        intro e _
        by_cases he : e.1 = n
        · subst he
          simp [hok', List.contains_cons]
        · simp [he, List.contains_cons]

/-- C8 (amended): `cleanup_containers` issues one stop-and-remove command pair
for every tracked container; a registry entry is dropped exactly when its stop
command exits 0, so the registry is empty afterwards provided every stop exits
0 (the rm exit codes are irrelevant) — not regardless of all exit codes. -/
theorem claim_C8 (run : List String → CmdRes) (st : CMState) :
    (cleanup_containers run st).trace = st.trace ++
        (st.managed_containers.map Prod.fst).flatMap
          (fun n => [[st.runtime.value, "stop", n], [st.runtime.value, "rm", n]])
    ∧ (cleanup_containers run st).managed_containers =
        st.managed_containers.filter (fun e => !(stopSucceeds run st.runtime e.1))
    ∧ ((∀ e ∈ st.managed_containers, stopSucceeds run st.runtime e.1 = true) →
        (cleanup_containers run st).managed_containers = []) := by
  obtain ⟨hr, ht, hm⟩ := cleanup_go_state run (st.managed_containers.map Prod.fst) st
  have hmm : (cleanup_containers run st).managed_containers =
      st.managed_containers.filter (fun e => !(stopSucceeds run st.runtime e.1)) := by
    rw [cleanup_containers, hm]
    apply List.filter_congr
    intro e he
    have hc : (st.managed_containers.map Prod.fst).contains e.1 = true :=
      List.elem_eq_true_of_mem (List.mem_map_of_mem Prod.fst he)
    rw [hc]
    simp
  refine ⟨ht, hmm, ?_⟩
  intro hall
  rw [hmm]
  apply List.filter_eq_nil_iff.mpr
  intro e he
  simp [hall e he]

/-- C8 at concrete inputs: with all engine commands exiting 0, cleaning up
three tracked containers issues exactly three stop/rm pairs and empties the
registry. -/
theorem claim_C8_witness :
    (cleanup_containers (fun _ => .done 0 "" "") st3C8).managed_containers = []
    ∧ (cleanup_containers (fun _ => .done 0 "" "") st3C8).trace =
        [["podman", "stop", "a"], ["podman", "rm", "a"],
         ["podman", "stop", "b"], ["podman", "rm", "b"],
         ["podman", "stop", "c"], ["podman", "rm", "c"]] :=
  ⟨(claim_C8 (fun _ => .done 0 "" "") st3C8).2.2 (by decide), by decide⟩

/-- C8 counterexample: when the stop command exits non-zero the stop/rm pair
is still issued but the registry keeps the container — cleanup does not leave
the registry empty regardless of exit codes. -/
theorem claim_C8_counterexample :
    (cleanup_containers runFailC8 stFailC8).managed_containers = [("a", ciFixture "a")]
    ∧ (cleanup_containers runFailC8 stFailC8).trace =
        [["podman", "stop", "a"], ["podman", "rm", "a"]] := by
  decide

/-- Decimal digit characters are never an underscore. -/
theorem digitChar_ne_underscore : ∀ m : Nat, m < 10 → Nat.digitChar m ≠ '_' := by
  have h : ∀ m : Fin 10, Nat.digitChar m.val ≠ '_' := by decide
  intro m hm
  exact h ⟨m, hm⟩

/-- The base-10 digit accumulator never introduces an underscore. -/
theorem toDigitsCore_no_us :
    ∀ (fuel n : Nat) (ds : List Char), (∀ c ∈ ds, c ≠ '_') →
      ∀ c ∈ Nat.toDigitsCore 10 fuel n ds, c ≠ '_' := by
  intro fuel
  induction fuel with
  | zero => intro n ds hds c hc; exact hds c hc
  | succ fuel ih =>
    intro n ds hds c hc
    rw [Nat.toDigitsCore] at hc
    by_cases h0 : n / 10 = 0
    · simp only [h0, if_pos rfl] at hc
      rcases List.mem_cons.mp hc with h | h
      · subst h; exact digitChar_ne_underscore _ (Nat.mod_lt _ (by decide))
      · exact hds c h
    · simp only [if_neg h0] at hc
      refine ih (n / 10) (Nat.digitChar (n % 10) :: ds) ?_ c hc
      intro d hd
      rcases List.mem_cons.mp hd with h | h
      · subst h; exact digitChar_ne_underscore _ (Nat.mod_lt _ (by decide))
      · exact hds d h

/-- The decimal representation of a natural number contains no underscore. -/
theorem repr_no_us (n : Nat) : ∀ c ∈ (Nat.repr n).data, c ≠ '_' := by
  intro c hc
  have h : c ∈ Nat.toDigitsCore 10 (n + 1) n [] := hc
  exact toDigitsCore_no_us (n + 1) n [] (by intro d hd; cases hd) c h

/-- Splitting around an underscore is unambiguous when the prefixes contain no
underscore. -/
theorem append_us_inj :
    ∀ (a1 a2 r1 r2 : List Char), (∀ c ∈ a1, c ≠ '_') → (∀ c ∈ a2, c ≠ '_') →
      a1 ++ '_' :: r1 = a2 ++ '_' :: r2 → a1 = a2 ∧ r1 = r2 := by
  intro a1
  induction a1 with
  | nil =>
    intro a2 r1 r2 _ h2 heq
    cases a2 with
    | nil =>
      simp only [List.nil_append] at heq
      exact ⟨rfl, (List.cons.inj heq).2⟩
    | cons b bs =>
      simp only [List.nil_append, List.cons_append] at heq
      have hb : '_' = b := (List.cons.inj heq).1
      exact absurd hb.symm (h2 b (List.mem_cons_self b bs))
  | cons a as ih =>
    intro a2 r1 r2 h1 h2 heq
    cases a2 with
    | nil =>
      simp only [List.cons_append, List.nil_append] at heq
      have ha : a = '_' := (List.cons.inj heq).1
      exact absurd ha (h1 a (List.mem_cons_self a as))
    | cons b bs =>
      simp only [List.cons_append] at heq
      obtain ⟨hab, htail⟩ := List.cons.inj heq
      obtain ⟨he1, he2⟩ := ih bs r1 r2 (fun c hc => h1 c (List.mem_cons_of_mem a hc))
        (fun c hc => h2 c (List.mem_cons_of_mem b hc)) htail
      exact ⟨by rw [hab, he1], he2⟩

/-- An issue id `key ++ "_" ++ timestamp` determines its key: the timestamp
text holds no underscore, so the last underscore separates the parts. -/
theorem mkId_key_inj (k1 k2 : String) (t1 t2 : Nat)
    (h : k1 ++ "_" ++ toString t1 = k2 ++ "_" ++ toString t2) : k1 = k2 := by
  have hd' : k1.data ++ '_' :: (Nat.repr t1).data = k2.data ++ '_' :: (Nat.repr t2).data := by
    have hd := congrArg String.data h
    simpa [String.data_append, List.append_assoc] using hd
  have hrev : (Nat.repr t1).data.reverse ++ '_' :: k1.data.reverse =
      (Nat.repr t2).data.reverse ++ '_' :: k2.data.reverse := by
    have hr := congrArg List.reverse hd'
    simpa [List.reverse_append, List.reverse_cons, List.append_assoc] using hr
  obtain ⟨_, hk⟩ := append_us_inj _ _ _ _
    (fun c hc => repr_no_us t1 c (List.mem_reverse.mp hc))
    (fun c hc => repr_no_us t2 c (List.mem_reverse.mp hc)) hrev
  have hdata : k1.data = k2.data := List.reverse_injective hk
  cases k1
  cases k2
  simp only at hdata
  rw [hdata]

/-- Every issue emitted by the detect loop carries an id built from a key of
the scanned registry slice and a timestamp. -/
theorem detectGo_id_shape (matchO : String → String → Bool) (ts : Nat → Nat)
    (cmd err : String) :
    ∀ (table : List (String × PatternConfig)) (i : Nat) (issue : Issue),
      issue ∈ detectGo matchO ts cmd err table i →
      ∃ k ∈ table.map Prod.fst, ∃ t : Nat, issue.id = k ++ "_" ++ toString t := by
  intro table
  induction table with
  | nil => intro i issue h; simp [detectGo] at h
  | cons e rest ih =>
    intro i issue h
    obtain ⟨k, pc⟩ := e
    by_cases hm : matchO pc.pattern err = true
    · rw [detectGo, if_pos hm] at h
      rcases List.mem_cons.mp h with h | h
      · exact ⟨k, by simp, ts i, by rw [h]; rfl⟩
      · obtain ⟨k', hk', t, ht⟩ := ih (i + 1) issue h
        exact ⟨k', by simp only [List.map_cons]; exact List.mem_cons_of_mem _ hk', t, ht⟩
    · rw [detectGo, if_neg hm] at h
      obtain ⟨k', hk', t, ht⟩ := ih i issue h
      exact ⟨k', by simp only [List.map_cons]; exact List.mem_cons_of_mem _ hk', t, ht⟩

/-- When the registry keys are distinct, the issues of one detect pass have
pairwise distinct ids, whatever the timestamps are. -/
theorem detectGo_pairwise (matchO : String → String → Bool) (ts : Nat → Nat)
    (cmd err : String) :
    ∀ (table : List (String × PatternConfig)) (i : Nat),
      (table.map Prod.fst).Nodup →
      (detectGo matchO ts cmd err table i).Pairwise (fun a b => a.id ≠ b.id) := by
  intro table
  induction table with
  | nil => intro i _; simp [detectGo]
  | cons e rest ih =>
    intro i hnd
    obtain ⟨k, pc⟩ := e
    simp only [List.map_cons, List.nodup_cons] at hnd
    by_cases hm : matchO pc.pattern err = true
    · rw [detectGo, if_pos hm]
      refine List.Pairwise.cons ?_ (ih (i + 1) hnd.2)
      intro b hb
      obtain ⟨k', hk', t, ht⟩ := detectGo_id_shape matchO ts cmd err rest (i + 1) b hb
      intro hcontra
      rw [ht] at hcontra
      have hkk := mkId_key_inj k k' (ts i) t hcontra
      exact hnd.1 (hkk ▸ hk')
    · rw [detectGo, if_neg hm]
      exact ih i hnd.2

/-- C9 (amended): within one `detect_issues` call all emitted issues have
pairwise distinct identifiers (the registry keys are distinct and the
timestamp text cannot blur the key); across distinct calls identifiers can
collide whenever the whole-second timestamps coincide. -/
theorem claim_C9 (matchO : String → String → Bool) (ts : Nat → Nat)
    (cmd err : String) (rc : Int) :
    (detect_issues matchO ts cmd err rc).Pairwise (fun a b => a.id ≠ b.id) := by
  unfold detect_issues
  split
  · exact List.Pairwise.nil
  · exact detectGo_pairwise matchO ts cmd err fix_patterns 0 (by decide)

/-- C9 counterexample: two distinct `detect_issues` calls (different commands,
hence different Issue records) made within the same second and matching the
same pattern produce the same identifier — identifiers are not distinct across
repeated calls. -/
theorem claim_C9_counterexample :
    ((detect_issues (fun p _ => p == "conda.*command not found") (fun _ => 100)
        "cmdA" "e" 1).map Issue.id = ["conda_not_found_100"])
    ∧ ((detect_issues (fun p _ => p == "conda.*command not found") (fun _ => 100)
        "cmdB" "e" 1).map Issue.id = ["conda_not_found_100"])
    ∧ (detect_issues (fun p _ => p == "conda.*command not found") (fun _ => 100)
        "cmdA" "e" 1 ≠
       detect_issues (fun p _ => p == "conda.*command not found") (fun _ => 100)
        "cmdB" "e" 1) := by
  decide

/-- Shape of the retry loop when every attempt fails: the success flag stays
false, the appended attempts are numbered consecutively from the current
attempt number, and every new attempt record carries the failing execution's
error message. -/
theorem retryGo_allFail (env : OrchEnv) (cfg : OrchCfg) (cj : String) (step : TutorialStep)
    (strat : RetryStrategy)
    (hfail : ∀ k, (execute_step (env.runA k) step.commands).1 = false) :
    ∀ (rem num : Nat) (atts : List RetryAttempt) (iss : List Issue) (fxs : List Fix)
      (st : FixStats),
      (retryGo env cfg cj step strat rem num atts iss fxs st).2.2.2 = false
      ∧ (retryGo env cfg cj step strat rem num atts iss fxs st).1.map
          RetryAttempt.attempt_number
          = atts.map RetryAttempt.attempt_number ++ List.range' num rem
      ∧ ∀ a ∈ (retryGo env cfg cj step strat rem num atts iss fxs st).1,
          a ∈ atts ∨ (a.success = false ∧
            a.error_message = (execute_step (env.runA a.attempt_number) step.commands).2) := by
  intro rem
  induction rem with
  | zero =>
    intro num atts iss fxs st
    refine ⟨rfl, by simp [retryGo], ?_⟩
    intro a ha
    exact Or.inl ha
  | succ rem ih =>
    intro num atts iss fxs st
    rcases hr : execute_step (env.runA num) step.commands with ⟨ok, errMsg⟩
    have hf : ok = false := by
      have := hfail num
      rw [hr] at this
      exact this
    subst hf
    rw [retryGo]
    simp only [hr]
    cases hfx : cfg.hasFixer with
    | false =>
      simp only [Bool.false_eq_true, if_false]
      obtain ⟨h1, h2, h3⟩ := ih (num + 1)
        (atts ++ [{ attempt_number := num, start_time := env.aStart num,
                    end_time := some (env.aEnd num), success := false,
                    error_message := errMsg }]) iss fxs st
      refine ⟨h1, ?_, ?_⟩
      · rw [h2]
        simp [List.range'_succ]
      · intro a ha
        rcases h3 a ha with h | h
        · rcases List.mem_append.mp h with h | h
          · exact Or.inl h
          · simp only [List.mem_singleton] at h
            subst h
            exact Or.inr ⟨rfl, by rw [hr]⟩
        · exact Or.inr h
    | true =>
      simp only [Bool.false_eq_true, if_false, eq_self_iff_true, if_true]
      by_cases hrem : 0 < rem
      · rw [if_pos hrem]
        obtain ⟨h1, h2, h3⟩ := ih (num + 1) _ _ _ _
        refine ⟨h1, ?_, ?_⟩
        · rw [h2]
          simp [List.range'_succ]
        · intro a ha
          rcases h3 a ha with h | h
          · rcases List.mem_append.mp h with h | h
            · exact Or.inl h
            · simp only [List.mem_singleton] at h
              subst h
              exact Or.inr ⟨rfl, by rw [hr]⟩
          · exact Or.inr h
      · rw [if_neg hrem]
        obtain ⟨h1, h2, h3⟩ := ih (num + 1) _ _ _ _
        refine ⟨h1, ?_, ?_⟩
        · rw [h2]
          simp [List.range'_succ]
        · intro a ha
          rcases h3 a ha with h | h
          · rcases List.mem_append.mp h with h | h
            · exact Or.inl h
            · simp only [List.mem_singleton] at h
              subst h
              exact Or.inr ⟨rfl, by rw [hr]⟩
          · exact Or.inr h

/-- A list extending `l1 ++ [a]` also extends `l1`. -/
theorem exists_append_suffix {α : Type} {l l1 m : List α} (a : α)
    (h : l = (l1 ++ [a]) ++ m) : ∃ s, l = l1 ++ s :=
  ⟨[a] ++ m, by rw [h, List.append_assoc]⟩

/-- The retry loop only ever appends to the attempt history, and appends at
least one attempt when at least one iteration remains. -/
theorem retryGo_extends (env : OrchEnv) (cfg : OrchCfg) (cj : String) (step : TutorialStep)
    (strat : RetryStrategy) :
    ∀ (rem num : Nat) (atts : List RetryAttempt) (iss : List Issue) (fxs : List Fix)
      (st : FixStats),
      (∃ suffix, (retryGo env cfg cj step strat rem num atts iss fxs st).1 = atts ++ suffix)
      ∧ (1 ≤ rem →
          atts.length < (retryGo env cfg cj step strat rem num atts iss fxs st).1.length) := by
  intro rem
  induction rem with
  | zero =>
    intro num atts iss fxs st
    exact ⟨⟨[], by simp [retryGo]⟩, by omega⟩
  | succ rem ih =>
    intro num atts iss fxs st
    rcases hr : execute_step (env.runA num) step.commands with ⟨ok, errMsg⟩
    rw [retryGo]
    simp only [hr]
    cases ok with
    | true =>
      simp only [eq_self_iff_true, if_true]
      exact ⟨⟨[_], rfl⟩, fun _ => by simp⟩
    | false =>
      by_cases hfx : cfg.hasFixer = true
      · simp only [Bool.false_eq_true, if_false, hfx, eq_self_iff_true, if_true]
        by_cases hrem : 0 < rem
        · rw [if_pos hrem]
          obtain ⟨⟨suf, hsuf⟩, _⟩ := ih (num + 1) _ _ _ _
          refine ⟨exists_append_suffix _ hsuf, fun _ => ?_⟩
          have hl := congrArg List.length hsuf
          simp only [List.length_append, List.length_cons, List.length_nil] at hl
          omega
        · rw [if_neg hrem]
          obtain ⟨⟨suf, hsuf⟩, _⟩ := ih (num + 1) _ _ _ _
          refine ⟨exists_append_suffix _ hsuf, fun _ => ?_⟩
          have hl := congrArg List.length hsuf
          simp only [List.length_append, List.length_cons, List.length_nil] at hl
          omega
      · have hfx' : cfg.hasFixer = false := by
          cases hx : cfg.hasFixer
          · rfl
          · exact absurd hx hfx
        simp only [Bool.false_eq_true, if_false, hfx']
        obtain ⟨⟨suf, hsuf⟩, _⟩ := ih (num + 1) _ _ _ _
        refine ⟨exists_append_suffix _ hsuf, fun _ => ?_⟩
        have hl := congrArg List.length hsuf
        simp only [List.length_append, List.length_cons, List.length_nil] at hl
        omega

/-- When the retry loop reports success, the last recorded attempt is a
successful one. -/
theorem retryGo_ok_last (env : OrchEnv) (cfg : OrchCfg) (cj : String) (step : TutorialStep)
    (strat : RetryStrategy) :
    ∀ (rem num : Nat) (atts : List RetryAttempt) (iss : List Issue) (fxs : List Fix)
      (st : FixStats),
      (retryGo env cfg cj step strat rem num atts iss fxs st).2.2.2 = true →
      ∃ att, (retryGo env cfg cj step strat rem num atts iss fxs st).1.getLast? = some att
        ∧ att.success = true := by
  intro rem
  induction rem with
  | zero =>
    intro num atts iss fxs st h
    cases h
  | succ rem ih =>
    intro num atts iss fxs st h
    rcases hr : execute_step (env.runA num) step.commands with ⟨ok, errMsg⟩
    rw [retryGo] at h ⊢
    simp only [hr] at h ⊢
    cases ok with
    | true =>
      simp only [eq_self_iff_true, if_true] at h ⊢
      exact ⟨_, List.getLast?_concat _, rfl⟩
    | false =>
      by_cases hfx : cfg.hasFixer = true
      · simp only [Bool.false_eq_true, if_false, hfx, eq_self_iff_true, if_true] at h ⊢
        by_cases hrem : 0 < rem
        · rw [if_pos hrem] at h ⊢
          exact ih (num + 1) _ _ _ _ h
        · rw [if_neg hrem] at h ⊢
          exact ih (num + 1) _ _ _ _ h
      · have hfx' : cfg.hasFixer = false := by
          cases hx : cfg.hasFixer
          · rfl
          · exact absurd hx hfx
        simp only [Bool.false_eq_true, if_false, hfx'] at h ⊢
        exact ih (num + 1) _ _ _ _ h

/-- Shape of the retry loop when the first `t` attempts fail and attempt
`num + t` succeeds within the remaining budget: the loop reports success,
records exactly the attempts numbered `num..num+t`, and the last record is the
successful one. -/
theorem retryGo_firstSuccess (env : OrchEnv) (cfg : OrchCfg) (cj : String)
    (step : TutorialStep) (strat : RetryStrategy) :
    ∀ (t rem num : Nat) (atts : List RetryAttempt) (iss : List Issue) (fxs : List Fix)
      (st : FixStats),
      (∀ j, num ≤ j → j < num + t → (execute_step (env.runA j) step.commands).1 = false) →
      (execute_step (env.runA (num + t)) step.commands).1 = true →
      t < rem →
      (retryGo env cfg cj step strat rem num atts iss fxs st).2.2.2 = true
      ∧ (retryGo env cfg cj step strat rem num atts iss fxs st).1.map
          RetryAttempt.attempt_number
          = atts.map RetryAttempt.attempt_number ++ List.range' num (t + 1)
      ∧ ∃ att, (retryGo env cfg cj step strat rem num atts iss fxs st).1.getLast? = some att
          ∧ att.success = true ∧ att.attempt_number = num + t := by
  intro t
  induction t with
  | zero =>
    intro rem num atts iss fxs st hfail hsucc hlt
    obtain ⟨rem', rfl⟩ : ∃ r', rem = r' + 1 := ⟨rem - 1, by omega⟩
    rcases hr : execute_step (env.runA num) step.commands with ⟨ok, errMsg⟩
    have hok : ok = true := by
      have hs := hsucc
      rw [Nat.add_zero, hr] at hs
      exact hs
    subst hok
    rw [retryGo]
    simp only [hr, eq_self_iff_true, if_true]
    exact ⟨by simp, by simp [List.range'_succ], ⟨_, List.getLast?_concat _, by simp, by simp⟩⟩
  | succ t ih =>
    intro rem num atts iss fxs st hfail hsucc hlt
    obtain ⟨rem', rfl⟩ : ∃ r', rem = r' + 1 := ⟨rem - 1, by omega⟩
    rcases hr : execute_step (env.runA num) step.commands with ⟨ok, errMsg⟩
    have hok : ok = false := by
      have h0 := hfail num (le_refl num) (by omega)
      rw [hr] at h0
      exact h0
    subst hok
    rw [retryGo]
    simp only [hr]
    have hfail' : ∀ j, num + 1 ≤ j → j < (num + 1) + t →
        (execute_step (env.runA j) step.commands).1 = false := by
      intro j h1 h2
      exact hfail j (by omega) (by omega)
    have hsucc' : (execute_step (env.runA ((num + 1) + t)) step.commands).1 = true := by
      have he : (num + 1) + t = num + (t + 1) := by omega
      rw [he]
      exact hsucc
    have hlt' : t < rem' := by omega
    by_cases hfx : cfg.hasFixer = true
    · simp only [Bool.false_eq_true, if_false, hfx, eq_self_iff_true, if_true]
      by_cases hrem : 0 < rem'
      · rw [if_pos hrem]
        obtain ⟨h1, h2, att, h3, h4, h5⟩ := ih rem' (num + 1) _ _ _ _ hfail' hsucc' hlt'
        refine ⟨h1, ?_, att, h3, h4, by omega⟩
        rw [h2]
        simp [List.range'_succ]
      · omega
    · have hfx' : cfg.hasFixer = false := by
        cases hx : cfg.hasFixer
        · rfl
        · exact absurd hx hfx
      simp only [Bool.false_eq_true, if_false, hfx']
      obtain ⟨h1, h2, att, h3, h4, h5⟩ := ih rem' (num + 1) _ _ _ _ hfail' hsucc' hlt'
      refine ⟨h1, ?_, att, h3, h4, by omega⟩
      rw [h2]
      simp [List.range'_succ]

/-- `execute_with_retry` with a non-zero explicit `max_attempts` runs the loop
for exactly that budget and packages the result. -/
theorem execute_with_retry_someN (env : OrchEnv) (cfg : OrchCfg) (step : TutorialStep)
    (strat : Option RetryStrategy) (N : Nat) (hN : ¬ N = 0) :
    execute_with_retry env cfg step (some N) strat =
      (match (retryGo env cfg (joinSep " && " step.commands) step
          (strat.getD cfg.strategyCfg) N 1 [] [] [] []).1.getLast? with
       | none => none
       | some fin =>
         some { success := (retryGo env cfg (joinSep " && " step.commands) step
                  (strat.getD cfg.strategyCfg) N 1 [] [] [] []).2.2.2,
                final_attempt := fin,
                all_attempts := (retryGo env cfg (joinSep " && " step.commands) step
                  (strat.getD cfg.strategyCfg) N 1 [] [] [] []).1,
                total_execution_time := env.retNow
                  (retryGo env cfg (joinSep " && " step.commands) step
                    (strat.getD cfg.strategyCfg) N 1 [] [] [] []).1.length - env.t0,
                issues_detected := (retryGo env cfg (joinSep " && " step.commands) step
                  (strat.getD cfg.strategyCfg) N 1 [] [] [] []).2.1,
                fixes_applied := (retryGo env cfg (joinSep " && " step.commands) step
                  (strat.getD cfg.strategyCfg) N 1 [] [] [] []).2.2.1 }) := by
  unfold execute_with_retry
  simp [hN]

/-- `execute_with_retry` always takes the shape of the loop result packaged
behind the last-attempt lookup, for some effective attempt budget. -/
theorem execute_with_retry_as_loop (env : OrchEnv) (cfg : OrchCfg) (step : TutorialStep)
    (ma : Option Nat) (strat : Option RetryStrategy) :
    ∃ maxA, execute_with_retry env cfg step ma strat =
      (match (retryGo env cfg (joinSep " && " step.commands) step
          (strat.getD cfg.strategyCfg) maxA 1 [] [] [] []).1.getLast? with
       | none => none
       | some fin =>
         some { success := (retryGo env cfg (joinSep " && " step.commands) step
                  (strat.getD cfg.strategyCfg) maxA 1 [] [] [] []).2.2.2,
                final_attempt := fin,
                all_attempts := (retryGo env cfg (joinSep " && " step.commands) step
                  (strat.getD cfg.strategyCfg) maxA 1 [] [] [] []).1,
                total_execution_time := env.retNow
                  (retryGo env cfg (joinSep " && " step.commands) step
                    (strat.getD cfg.strategyCfg) maxA 1 [] [] [] []).1.length - env.t0,
                issues_detected := (retryGo env cfg (joinSep " && " step.commands) step
                  (strat.getD cfg.strategyCfg) maxA 1 [] [] [] []).2.1,
                fixes_applied := (retryGo env cfg (joinSep " && " step.commands) step
                  (strat.getD cfg.strategyCfg) maxA 1 [] [] [] []).2.2.1 }) :=
  ⟨_, rfl⟩

/-- C1: for a step failing on every attempt and an explicit budget of N ≥ 1
attempts, `execute_with_retry` returns (never raises) an unsuccessful result
whose attempt list holds exactly the attempts numbered 1..N in order, with the
final attempt being the last record, numbered N. -/
theorem claim_C1 (env : OrchEnv) (cfg : OrchCfg) (step : TutorialStep)
    (N : Nat) (strat : Option RetryStrategy)
    (hN : 1 ≤ N)
    (hfail : ∀ k, (execute_step (env.runA k) step.commands).1 = false) :
    ∃ r, execute_with_retry env cfg step (some N) strat = some r
      ∧ r.success = false
      ∧ r.all_attempts.map RetryAttempt.attempt_number = List.range' 1 N
      ∧ r.all_attempts.length = N
      ∧ r.all_attempts.getLast? = some r.final_attempt
      ∧ r.final_attempt.attempt_number = N := by
  have heq := execute_with_retry_someN env cfg step strat N (by omega)
  obtain ⟨h1, h2, _⟩ := retryGo_allFail env cfg (joinSep " && " step.commands) step
    (strat.getD cfg.strategyCfg) hfail N 1 [] [] [] []
  simp only [List.map_nil, List.nil_append] at h2
  have hlen : (retryGo env cfg (joinSep " && " step.commands) step
      (strat.getD cfg.strategyCfg) N 1 [] [] [] []).1.length = N := by
    have hl := congrArg List.length h2
    simpa using hl
  have hne : (retryGo env cfg (joinSep " && " step.commands) step
      (strat.getD cfg.strategyCfg) N 1 [] [] [] []).1 ≠ [] := by
    intro hemp
    rw [hemp] at hlen
    simp at hlen
    omega
  rcases hL : (retryGo env cfg (joinSep " && " step.commands) step
      (strat.getD cfg.strategyCfg) N 1 [] [] [] []).1.getLast? with _ | fin
  · exact absurd (List.getLast?_eq_none_iff.mp hL) hne
  · rw [hL] at heq
    have hfin : fin.attempt_number = N := by
      obtain ⟨M, rfl⟩ : ∃ M, N = M + 1 := ⟨N - 1, by omega⟩
      have hm := List.getLast?_map RetryAttempt.attempt_number
        (retryGo env cfg (joinSep " && " step.commands) step
          (strat.getD cfg.strategyCfg) (M + 1) 1 [] [] [] []).1
      rw [h2, hL, List.range'_concat, List.getLast?_concat] at hm
      have hinj := Option.some.inj hm
      omega
    exact ⟨_, heq, h1, h2, hlen, hL, hfin⟩

/-- C1 at concrete inputs: two always-failing attempts produce an unsuccessful
result with attempts numbered 1, 2 and final attempt 2. -/
theorem claim_C1_witness :
    ∃ r, execute_with_retry envAllFail { hasFixer := false } stepFixture (some 2) none = some r
      ∧ r.success = false
      ∧ r.all_attempts.map RetryAttempt.attempt_number = List.range' 1 2
      ∧ r.all_attempts.length = 2
      ∧ r.all_attempts.getLast? = some r.final_attempt
      ∧ r.final_attempt.attempt_number = 2 :=
  claim_C1 envAllFail { hasFixer := false } stepFixture 2 none (by omega) (fun k => rfl)

/-- C2: if attempt k is the first successful one and lies within the budget,
`execute_with_retry` returns immediately with exactly k attempts numbered
1..k, a successful result, and a successful final attempt; and in general a
successful result implies a successful final attempt. -/
theorem claim_C2 :
    (∀ (env : OrchEnv) (cfg : OrchCfg) (step : TutorialStep) (N k : Nat)
       (strat : Option RetryStrategy),
        1 ≤ k → k ≤ N →
        (∀ j, 1 ≤ j → j < k → (execute_step (env.runA j) step.commands).1 = false) →
        (execute_step (env.runA k) step.commands).1 = true →
        ∃ r, execute_with_retry env cfg step (some N) strat = some r
          ∧ r.success = true
          ∧ r.all_attempts.map RetryAttempt.attempt_number = List.range' 1 k
          ∧ r.all_attempts.length = k
          ∧ r.all_attempts.getLast? = some r.final_attempt
          ∧ r.final_attempt.success = true)
    ∧ (∀ (env : OrchEnv) (cfg : OrchCfg) (step : TutorialStep) (ma : Option Nat)
        (strat : Option RetryStrategy) (r : ExecutionResult),
        execute_with_retry env cfg step ma strat = some r →
        r.success = true → r.final_attempt.success = true) := by
  constructor
  · intro env cfg step N k strat hk hkN hfail hsucc
    have heq := execute_with_retry_someN env cfg step strat N (by omega)
    have hfail' : ∀ j, 1 ≤ j → j < 1 + (k - 1) →
        (execute_step (env.runA j) step.commands).1 = false := by
      intro j h1 h2
      exact hfail j h1 (by omega)
    have hsucc' : (execute_step (env.runA (1 + (k - 1))) step.commands).1 = true := by
      have he : 1 + (k - 1) = k := by omega
      rw [he]
      exact hsucc
    obtain ⟨h1, h2, att, h3, h4, h5⟩ := retryGo_firstSuccess env cfg
      (joinSep " && " step.commands) step (strat.getD cfg.strategyCfg)
      (k - 1) N 1 [] [] [] [] hfail' hsucc' (by omega)
    simp only [List.map_nil, List.nil_append] at h2
    have hkk : k - 1 + 1 = k := by omega
    rw [hkk] at h2
    rw [h3] at heq
    have hlen : (retryGo env cfg (joinSep " && " step.commands) step
        (strat.getD cfg.strategyCfg) N 1 [] [] [] []).1.length = k := by
      have hl := congrArg List.length h2
      simpa using hl
    exact ⟨_, heq, h1, h2, hlen, h3, h4⟩
  · intro env cfg step ma strat r h hs
    obtain ⟨maxA, heq⟩ := execute_with_retry_as_loop env cfg step ma strat
    rw [heq] at h
    rcases hL : (retryGo env cfg (joinSep " && " step.commands) step
        (strat.getD cfg.strategyCfg) maxA 1 [] [] [] []).1.getLast? with _ | fin
    · rw [hL] at h
      cases h
    · rw [hL] at h
      have hrr := (Option.some.inj h).symm
      subst hrr
      obtain ⟨att, hatt, hsa⟩ := retryGo_ok_last env cfg (joinSep " && " step.commands) step
        (strat.getD cfg.strategyCfg) maxA 1 [] [] [] [] hs
      have hfa : fin = att := by
        rw [hL] at hatt
        exact Option.some.inj hatt
      have hfs : fin.success = true := by
        rw [hfa]
        exact hsa
      exact hfs

/-- C2 at concrete inputs: first success on attempt 2 of 3 stops the loop with
two recorded attempts and a successful final attempt. -/
theorem claim_C2_witness :
    ∃ r, execute_with_retry envSuccAt2 { hasFixer := false } stepFixture (some 3) none = some r
      ∧ r.success = true
      ∧ r.all_attempts.map RetryAttempt.attempt_number = List.range' 1 2
      ∧ r.all_attempts.length = 2
      ∧ r.all_attempts.getLast? = some r.final_attempt
      ∧ r.final_attempt.success = true :=
  claim_C2.1 envSuccAt2 { hasFixer := false } stepFixture 3 2 none (by omega) (by omega)
    (by
      intro j h1 h2
      interval_cases j
      rfl)
    (by decide)

/-- C10 (amended): a falsy `max_attempts` argument (None or 0) is replaced by
the configured default, so the call behaves exactly like one with the default
budget; provided that default is at least 1 (it is 3 when unconfigured), the
result is a well-formed `ExecutionResult` with a non-empty attempt list whose
last record is the final attempt. -/
theorem claim_C10 (env : OrchEnv) (cfg : OrchCfg) (step : TutorialStep)
    (strat : Option RetryStrategy) (arg : Option Nat)
    (harg : arg = none ∨ arg = some 0)
    (hdef : 1 ≤ default_max_attempts cfg) :
    execute_with_retry env cfg step arg strat =
      execute_with_retry env cfg step (some (default_max_attempts cfg)) strat
    ∧ ∃ r, execute_with_retry env cfg step arg strat = some r
        ∧ r.all_attempts ≠ []
        ∧ r.all_attempts.getLast? = some r.final_attempt
        ∧ 1 ≤ r.all_attempts.length := by
  have hdz : ¬ default_max_attempts cfg = 0 := by omega
  have hsame : execute_with_retry env cfg step arg strat =
      execute_with_retry env cfg step (some (default_max_attempts cfg)) strat := by
    rcases harg with h | h <;> subst h <;> unfold execute_with_retry <;> simp [hdz]
  refine ⟨hsame, ?_⟩
  rw [hsame, execute_with_retry_someN env cfg step strat _ hdz]
  obtain ⟨⟨suf, hsuf⟩, hlen⟩ := retryGo_extends env cfg (joinSep " && " step.commands) step
    (strat.getD cfg.strategyCfg) (default_max_attempts cfg) 1 [] [] [] []
  have hne : (retryGo env cfg (joinSep " && " step.commands) step
      (strat.getD cfg.strategyCfg) (default_max_attempts cfg) 1 [] [] [] []).1 ≠ [] := by
    intro hemp
    have hl := hlen hdef
    rw [hemp] at hl
    simp at hl
  rcases hL : (retryGo env cfg (joinSep " && " step.commands) step
      (strat.getD cfg.strategyCfg) (default_max_attempts cfg) 1 [] [] [] []).1.getLast?
      with _ | fin
  · exact absurd (List.getLast?_eq_none_iff.mp hL) hne
  · refine ⟨_, rfl, hne, hL, ?_⟩
    have hl := hlen hdef
    simpa using Nat.one_le_iff_ne_zero.mpr (by
      intro h0
      rw [List.length_eq_zero] at h0
      exact hne h0)

/-- C10 counterexample: with a configured default of 0, a falsy
`max_attempts` argument makes the loop run zero attempts and `attempts[-1]`
raises instead of returning a result (modelled as `none`). -/
theorem claim_C10_counterexample :
    execute_with_retry envAllFail { maxAttemptsCfg := some 0, hasFixer := false }
      stepFixture (some 0) none = none
    ∧ execute_with_retry envAllFail { maxAttemptsCfg := some 0, hasFixer := false }
      stepFixture none none = none := by
  decide

/-- C10 at concrete inputs: `max_attempts = 0` under the unconfigured default
of 3 behaves like `max_attempts = 3` and yields a non-empty attempt list. -/
theorem claim_C10_witness :
    execute_with_retry envAllFail { hasFixer := false } stepFixture (some 0) none =
      execute_with_retry envAllFail { hasFixer := false } stepFixture
        (some (default_max_attempts { hasFixer := false })) none
    ∧ ∃ r, execute_with_retry envAllFail { hasFixer := false } stepFixture (some 0) none = some r
        ∧ r.all_attempts ≠ []
        ∧ r.all_attempts.getLast? = some r.final_attempt
        ∧ 1 ≤ r.all_attempts.length :=
  claim_C10 envAllFail { hasFixer := false } stepFixture none (some 0) (Or.inr rfl) (by decide)

/-- Step execution only depends on the pointwise behaviour of the process
oracle. -/
theorem execute_step_congr (f g : String → Bool × Option String)
    (h : ∀ p, f p = g p) : ∀ l : List String, execute_step f l = execute_step g l := by
  intro l
  induction l with
  | nil => rfl
  | cons c rest ih =>
    rw [execute_step, execute_step, h (commandPayload c), ih]

/-- C4 counterexample: the conda substitution rule matches attempt 1's failure
and rewrites the command, and the rewritten command would have succeeded on
attempt 2; yet `execute_with_retry` re-runs the original command verbatim and
fails both attempts — the substitution layer is never applied when forming the
next attempt's command. -/
theorem claim_C4_counterexample :
    ((execute_with_retry envC4 { hasFixer := false } stepC4 (some 2) none).map
        (fun r => (r.success,
          r.all_attempts.map (fun a => (a.attempt_number, a.success, a.error_message)))) =
      some (false, [(1, false, some condaErrC4), (2, false, some condaErrC4)]))
    ∧ modify_command_for_retry "/w" none condaCmdC4 2 condaErrC4 ≠ condaCmdC4
    ∧ (envC4.runA 2
        (commandPayload (modify_command_for_retry "/w" none condaCmdC4 2 condaErrC4))).1 =
      true := by
  decide

/-- C4 (amended): the orchestrator does hold the (substring-in-command,
substring-in-error) substitution rules in `modify_command_for_retry` — the
conda rules rewrite the command for attempts 2 and 3 — but
`execute_with_retry` never invokes that method: when the process layer treats
the same payload identically on every attempt, a failing first attempt fails
identically on all attempts, i.e. each attempt re-runs the original commands
verbatim. -/
theorem claim_C4 :
    (∀ (cwd : String) (bp : Option String) (cmd err : String),
        strIn "conda activate" cmd = true → strIn condaInitMarker err = true →
        modify_command_for_retry cwd bp cmd 2 err =
          "bash -c " ++ sq ++ "source ~/miniconda3/etc/profile.d/conda.sh && " ++ cmd ++ sq
        ∧ modify_command_for_retry cwd bp cmd 3 err =
          "bash -c " ++ sq ++ "source ~/anaconda3/etc/profile.d/conda.sh && " ++ cmd ++ sq)
    ∧ (∀ (env : OrchEnv) (run0 : String → Bool × Option String) (cfg : OrchCfg)
         (step : TutorialStep) (N : Nat) (strat : Option RetryStrategy),
        (∀ k p, env.runA k p = run0 p) →
        (execute_step run0 step.commands).1 = false →
        1 ≤ N →
        ∃ r, execute_with_retry env cfg step (some N) strat = some r
          ∧ r.success = false
          ∧ r.all_attempts.length = N
          ∧ ∀ a ∈ r.all_attempts,
              a.success = false ∧ a.error_message = (execute_step run0 step.commands).2) := by
  constructor
  · intro cwd bp cmd err h1 h2
    constructor
    · unfold modify_command_for_retry
      rw [if_pos ⟨h1, h2, rfl⟩]
    · unfold modify_command_for_retry
      rw [if_neg (by
        rintro ⟨_, _, hat⟩
        cases hat)]
      rw [if_pos ⟨h1, h2, rfl⟩]
  · intro env run0 cfg step N strat hpt hfail0 hN
    have hcong : ∀ k, execute_step (env.runA k) step.commands =
        execute_step run0 step.commands := by
      intro k
      exact execute_step_congr _ _ (hpt k) step.commands
    have hfail : ∀ k, (execute_step (env.runA k) step.commands).1 = false := by
      intro k
      rw [hcong k]
      exact hfail0
    have heq := execute_with_retry_someN env cfg step strat N (by omega)
    obtain ⟨h1, h2, h3⟩ := retryGo_allFail env cfg (joinSep " && " step.commands) step
      (strat.getD cfg.strategyCfg) hfail N 1 [] [] [] []
    simp only [List.map_nil, List.nil_append] at h2
    have hlen : (retryGo env cfg (joinSep " && " step.commands) step
        (strat.getD cfg.strategyCfg) N 1 [] [] [] []).1.length = N := by
      have hl := congrArg List.length h2
      simpa using hl
    have hne : (retryGo env cfg (joinSep " && " step.commands) step
        (strat.getD cfg.strategyCfg) N 1 [] [] [] []).1 ≠ [] := by
      intro hemp
      rw [hemp] at hlen
      simp at hlen
      omega
    rcases hL : (retryGo env cfg (joinSep " && " step.commands) step
        (strat.getD cfg.strategyCfg) N 1 [] [] [] []).1.getLast? with _ | fin
    · exact absurd (List.getLast?_eq_none_iff.mp hL) hne
    · rw [hL] at heq
      refine ⟨_, heq, h1, hlen, ?_⟩
      intro a ha
      rcases h3 a ha with h | h
      · cases h
      · exact ⟨h.1, by rw [h.2, hcong]⟩

/-- C4 at concrete inputs: the conda rules rewrite the command on attempts 2
and 3, and a uniformly failing two-command budget fails both attempts with the
same error. -/
theorem claim_C4_witness :
    (modify_command_for_retry "/w" none condaCmdC4 2 condaErrC4 =
      "bash -c " ++ sq ++ "source ~/miniconda3/etc/profile.d/conda.sh && " ++ condaCmdC4 ++ sq
    ∧ modify_command_for_retry "/w" none condaCmdC4 3 condaErrC4 =
      "bash -c " ++ sq ++ "source ~/anaconda3/etc/profile.d/conda.sh && " ++ condaCmdC4 ++ sq)
    ∧ ∃ r, execute_with_retry envAllFail { hasFixer := false } stepFixture (some 2) none = some r
        ∧ r.success = false
        ∧ r.all_attempts.length = 2
        ∧ ∀ a ∈ r.all_attempts,
            a.success = false ∧ a.error_message =
              (execute_step (fun _ => (false, some "boom")) stepFixture.commands).2 :=
  ⟨claim_C4.1 "/w" none condaCmdC4 condaErrC4 (by decide) (by decide),
   claim_C4.2 envAllFail (fun _ => (false, some "boom")) { hasFixer := false } stepFixture 2 none
     (fun _ _ => rfl) (by decide) (by omega)⟩


end Bait

